import Mathlib

/-!
Verification of the polarization-propagation / contrast / Stokes engine of the
ips_compensation repository.

Floating-point numbers of the Python source are modelled as real numbers (ℝ),
complex field vectors as ℂ-valued 3-vectors.  Functions of the repository's
core module `ips_compensation_run_signedC` (imported by every script but not
part of the repository snapshot) are modelled from the spec: where the spec
gives a formula (spherical direction, transverse pass axis, retarder operator)
they are concrete definitions marked "Modelled from the spec"; where the spec
gives only an interface (the two retardance formulas, the per-key wavelength
table, the dispersion scale tables) they are fields of the `Core` parameter
structure, and theorems hold for every `Core`.
-/

noncomputable section

/-- Real 3-vectors (numpy float arrays of length 3). -/
structure Vec3 where
  x : ℝ
  y : ℝ
  z : ℝ

namespace Vec3

instance : Zero Vec3 := ⟨⟨0, 0, 0⟩⟩

instance : Sub Vec3 := ⟨fun a b => ⟨a.x - b.x, a.y - b.y, a.z - b.z⟩⟩

instance : SMul ℝ Vec3 := ⟨fun t a => ⟨t * a.x, t * a.y, t * a.z⟩⟩

@[simp] theorem zero_x : (0 : Vec3).x = 0 := rfl

@[simp] theorem zero_y : (0 : Vec3).y = 0 := rfl

@[simp] theorem zero_z : (0 : Vec3).z = 0 := rfl

@[simp] theorem sub_x (a b : Vec3) : (a - b).x = a.x - b.x := rfl

@[simp] theorem sub_y (a b : Vec3) : (a - b).y = a.y - b.y := rfl

@[simp] theorem sub_z (a b : Vec3) : (a - b).z = a.z - b.z := rfl

@[simp] theorem smul_x (t : ℝ) (a : Vec3) : (t • a).x = t * a.x := rfl

@[simp] theorem smul_y (t : ℝ) (a : Vec3) : (t • a).y = t * a.y := rfl

@[simp] theorem smul_z (t : ℝ) (a : Vec3) : (t • a).z = t * a.z := rfl

/-- `np.dot` of two real 3-vectors. -/
def dot (a b : Vec3) : ℝ := a.x * b.x + a.y * b.y + a.z * b.z

/-- `np.cross`. -/
def cross (a b : Vec3) : Vec3 :=
  ⟨a.y * b.z - a.z * b.y, a.z * b.x - a.x * b.z, a.x * b.y - a.y * b.x⟩

/-- Squared Euclidean norm. -/
def norm2 (a : Vec3) : ℝ := a.x * a.x + a.y * a.y + a.z * a.z

/-- `np.linalg.norm`. -/
def norm (a : Vec3) : ℝ := Real.sqrt a.norm2

theorem ext_iff {a b : Vec3} : a = b ↔ a.x = b.x ∧ a.y = b.y ∧ a.z = b.z := by
  cases a; cases b; simp [mk.injEq]

theorem dot_comm (a b : Vec3) : dot a b = dot b a := by
  simp only [dot]; ring

theorem dot_sub_left (a b c : Vec3) : dot (a - b) c = dot a c - dot b c := by
  simp only [dot, sub_x, sub_y, sub_z]; ring

theorem dot_smul_left (t : ℝ) (a b : Vec3) : dot (t • a) b = t * dot a b := by
  simp only [dot, smul_x, smul_y, smul_z]; ring

theorem norm2_nonneg (a : Vec3) : 0 ≤ norm2 a := by
  simp only [norm2]; nlinarith [sq_nonneg a.x, sq_nonneg a.y, sq_nonneg a.z]

theorem norm_nonneg (a : Vec3) : 0 ≤ norm a := Real.sqrt_nonneg _

theorem norm2_eq_dot (a : Vec3) : norm2 a = dot a a := rfl

theorem norm_eq_one_iff {a : Vec3} : norm a = 1 ↔ norm2 a = 1 := by
  unfold norm; exact Real.sqrt_eq_one

theorem norm2_smul (t : ℝ) (a : Vec3) : norm2 (t • a) = t ^ 2 * norm2 a := by
  simp only [norm2, smul_x, smul_y, smul_z]; ring

theorem norm_smul (t : ℝ) (a : Vec3) : norm (t • a) = |t| * norm a := by
  unfold norm
  rw [norm2_smul, Real.sqrt_mul (sq_nonneg t), Real.sqrt_sq_eq_abs]

theorem norm2_cross (a b : Vec3) :
    norm2 (cross a b) = norm2 a * norm2 b - (dot a b) ^ 2 := by
  simp only [norm2, cross, dot]; ring

theorem dot_cross_left (a b : Vec3) : dot (cross a b) a = 0 := by
  simp only [cross, dot]; ring

theorem dot_cross_right (a b : Vec3) : dot (cross a b) b = 0 := by
  simp only [cross, dot]; ring

theorem dot_cross_triple (k u : Vec3) :
    dot k (cross u (cross k u)) = norm2 k * norm2 u - (dot k u) ^ 2 := by
  simp only [cross, dot, norm2]; ring

theorem norm2_zero_iff {a : Vec3} : norm2 a = 0 ↔ a = 0 := by
  constructor
  · intro h
    simp only [norm2] at h
    have hx : a.x ^ 2 = 0 := by nlinarith [sq_nonneg a.x, sq_nonneg a.y, sq_nonneg a.z]
    have hy : a.y ^ 2 = 0 := by nlinarith [sq_nonneg a.x, sq_nonneg a.y, sq_nonneg a.z]
    have hz : a.z ^ 2 = 0 := by nlinarith [sq_nonneg a.x, sq_nonneg a.y, sq_nonneg a.z]
    refine ext_iff.mpr ⟨?_, ?_, ?_⟩ <;>
      simp only [zero_x, zero_y, zero_z] <;>
      [exact pow_eq_zero_iff two_ne_zero |>.mp hx;
       exact pow_eq_zero_iff two_ne_zero |>.mp hy;
       exact pow_eq_zero_iff two_ne_zero |>.mp hz]
  · intro h; subst h; simp [norm2]

end Vec3

/-- Complex 3-vectors (numpy complex arrays of length 3). -/
structure CVec3 where
  x : ℂ
  y : ℂ
  z : ℂ

namespace CVec3

instance : Add CVec3 := ⟨fun a b => ⟨a.x + b.x, a.y + b.y, a.z + b.z⟩⟩

instance : Sub CVec3 := ⟨fun a b => ⟨a.x - b.x, a.y - b.y, a.z - b.z⟩⟩

instance : SMul ℂ CVec3 := ⟨fun t a => ⟨t * a.x, t * a.y, t * a.z⟩⟩

@[simp] theorem cadd_x (a b : CVec3) : (a + b).x = a.x + b.x := rfl

@[simp] theorem cadd_y (a b : CVec3) : (a + b).y = a.y + b.y := rfl

@[simp] theorem cadd_z (a b : CVec3) : (a + b).z = a.z + b.z := rfl

@[simp] theorem csub_x (a b : CVec3) : (a - b).x = a.x - b.x := rfl

@[simp] theorem csub_y (a b : CVec3) : (a - b).y = a.y - b.y := rfl

@[simp] theorem csub_z (a b : CVec3) : (a - b).z = a.z - b.z := rfl

@[simp] theorem csmul_x (t : ℂ) (a : CVec3) : (t • a).x = t * a.x := rfl

@[simp] theorem csmul_y (t : ℂ) (a : CVec3) : (t • a).y = t * a.y := rfl

@[simp] theorem csmul_z (t : ℂ) (a : CVec3) : (t • a).z = t * a.z := rfl

end CVec3

/-- A real vector viewed as a complex one (`o1.astype(complex)`). -/
def Vec3.toC (a : Vec3) : CVec3 := ⟨(a.x : ℂ), (a.y : ℂ), (a.z : ℂ)⟩

/-- `np.dot(u, E)` for a real vector `u` and a complex vector `E`
(numpy `dot` does not conjugate; `np.vdot(o2, E)` with real `o2` is the
same sum). -/
def dotRC (u : Vec3) (E : CVec3) : ℂ := u.x * E.x + u.y * E.y + u.z * E.z

/-- Modelled from the spec (the core module `ips_compensation_run_signedC` is
not in the repository snapshot): `k_hat(theta, phi)` — unit propagation
direction via the standard spherical-to-Cartesian conversion, theta from the
normal and phi the azimuth, both in degrees. -/
def k_hat (theta_deg phi_deg : ℝ) : Vec3 :=
  let t := theta_deg * Real.pi / 180
  let p := phi_deg * Real.pi / 180
  ⟨Real.sin t * Real.cos p, Real.sin t * Real.sin p, Real.cos t⟩

/-- Modelled from the spec (missing core module): `o_axis_Otype(k, c)` — the
polarizer's transverse pass axis at `k`: the projection of the lab-frame
axis `c` onto the plane transverse to `k`, normalized.  The singularity
`c ∥ k` is not special-cased (in the real model `1/0 = 0`, so it yields the
zero vector). -/
def o_axis_Otype (k c : Vec3) : Vec3 :=
  let w := c - (Vec3.dot c k) • k
  (1 / w.norm) • w

/-- `ips_stokes_trace._normalize` (source): `v / max(norm(v), eps)`. -/
def pyNormalize (v : Vec3) (eps : ℝ := 1e-15) : Vec3 :=
  (1 / max v.norm eps) • v

/-- `ips_stokes_trace.transverse_basis` (source): orthonormal transverse basis
`(u, v)` with `v = k × u`, under policy `"lab"`, `"pol_in"` or `"pol_out"`. -/
def transverse_basis (k : Vec3) (basis : String) (c1 c2 : Option Vec3) :
    Except String (Vec3 × Vec3) :=
  let k := pyNormalize k
  let ue : Except String Vec3 :=
    if basis = "lab" then
      let ref : Vec3 := ⟨1, 0, 0⟩
      let ref := if |Vec3.dot ref k| > 0.95 then (⟨0, 1, 0⟩ : Vec3) else ref
      .ok (ref - (Vec3.dot ref k) • k)
    else if basis = "pol_in" then
      match c1 with
      | none => .error "basis='pol_in' requires c1"
      | some c => .ok (o_axis_Otype k c)
    else if basis = "pol_out" then
      match c2 with
      | none => .error "basis='pol_out' requires c2"
      | some c => .ok (o_axis_Otype k c)
    else .error "basis must be one of: lab, pol_in, pol_out"
  match ue with
  | .error e => .error e
  | .ok u =>
      let u := pyNormalize u
      let v := pyNormalize (Vec3.cross k u)
      .ok (u, v)

/-- `ips_stokes_trace.stokes_from_E` (source): Stokes parameters
`(S0, S1, S2, S3)` of the complex field `E` in the transverse basis `(u, v)`;
`E` is first re-projected transverse to `k`. -/
def stokes_from_E (E : CVec3) (k u v : Vec3) : ℝ × ℝ × ℝ × ℝ :=
  let k := pyNormalize k
  let E := E - (dotRC k E) • k.toC
  let Eu := dotRC u E
  let Ev := dotRC v E
  (Complex.normSq Eu + Complex.normSq Ev,
   Complex.normSq Eu - Complex.normSq Ev,
   2 * (Eu * starRingEnd ℂ Ev).re,
   2 * (Eu * starRingEnd ℂ Ev).im)

/-- `ips_stokes_trace.StokesPoint` (source): a labeled Stokes checkpoint. -/
structure StokesPoint where
  label : String
  wl_key : String
  S0 : ℝ
  S1 : ℝ
  S2 : ℝ
  S3 : ℝ

/-- `StokesPoint.s1` (source): `S1 / max(S0, 1e-30)`. -/
def StokesPoint.s1 (p : StokesPoint) : ℝ := p.S1 / max p.S0 1e-30

/-- `StokesPoint.s2` (source): `S2 / max(S0, 1e-30)`. -/
def StokesPoint.s2 (p : StokesPoint) : ℝ := p.S2 / max p.S0 1e-30

/-- `StokesPoint.s3` (source): `S3 / max(S0, 1e-30)`. -/
def StokesPoint.s3 (p : StokesPoint) : ℝ := p.S3 / max p.S0 1e-30

/-- An optical element of a stack: `{type, axis, d, no, ne}` (the `meta`
entry of the Python dicts carries no data used by the engine). -/
structure Element where
  type : String
  axis : Vec3
  d : ℝ
  no : ℝ
  ne : ℝ

/-- A `{B, G, R}` dispersion scale-factor entry of a dn-scale table. -/
structure ScaleBGR where
  B : ℝ
  G : ℝ
  R : ℝ

/-- The functions and tables of the missing core module
`ips_compensation_run_signedC` whose definitions the spec does not give:
the two retardance formulas, the per-wavelength-key index rule, the
wavelength-key map, the axis-azimuth inverse map, the three dispersion
scale tables and the contrast conversion.  Every theorem below holds for an
arbitrary `Core`. -/
structure Core where
  eq3a_Gamma_A : ℝ → ℝ → ℝ → ℝ → ℝ → ℝ → ℝ
  eq3b_Gamma_C : ℝ → ℝ → ℝ → ℝ → ℝ → ℝ
  neNoForWl : Element → String → ℝ × ℝ
  wlM : String → ℝ
  axisAzimuthDeg : Vec3 → ℝ
  dnScaleMatched : String → ScaleBGR
  dnScaleMismatched : String → ScaleBGR
  dnScaleCurrent : String → ScaleBGR
  CR_from_Tleak : ℝ → ℝ

/-- A concrete `Core` instance, used only to instantiate witnesses; its
retardance fields use the theta-independent normal-incidence value
`2·π·d·(ne−no)/λ` that the spec requires both formulas to reduce to. -/
def defaultCore : Core where
  eq3a_Gamma_A := fun _ _ lam d no ne => 2 * Real.pi * d * (ne - no) / lam
  eq3b_Gamma_C := fun _ lam d no ne => 2 * Real.pi * d * (ne - no) / lam
  neNoForWl := fun el _ => (el.no, el.ne)
  wlM := fun key => (if key = "B" then 450 else if key = "G" then 546 else 610) * 1e-9
  axisAzimuthDeg := fun _ => 0
  dnScaleMatched := fun _ => ⟨1, 1, 1⟩
  dnScaleMismatched := fun _ => ⟨1, 1, 1⟩
  dnScaleCurrent := fun _ => ⟨1, 1, 1⟩
  CR_from_Tleak := fun T => 1 / max T 1e-30

/-- Modelled from the spec (missing core module): the primary wavelength keys. -/
def WL_KEYS : List String := ["B", "G", "R"]

/-- Modelled from the spec (missing core module): canonical wavelength (nm)
of each primary key, the `{450, 546, 610}` primaries. -/
def WL_NM : String → ℝ :=
  fun key => if key = "B" then 450 else if key = "G" then 546 else 610

/-- Modelled from the spec (missing core module): default averaging weight of
each primary key, the `{B:1, G:2, R:1}` weights of the spec's white example
(`dict.get(k, 1.0)` made total). -/
def WL_WEIGHTS : String → ℝ := fun key => if key = "G" then 2 else 1

/-- Modelled from the spec (missing core module): `retarder_matrix(k, axis, Γ)`
applied to a field — splits the transverse plane into the element's
transverse pass-axis direction and its orthogonal complement, applies
conjugate phase factors whose difference is `Γ`, and leaves the component
along `k` unchanged (it is re-projected away afterwards). -/
def retarder_matrix (k axis : Vec3) (Gamma : ℝ) (E : CVec3) : CVec3 :=
  let p := o_axis_Otype k axis
  let q := Vec3.cross k p
  (Complex.exp (Complex.I * (Gamma / 2)) * dotRC p E) • p.toC +
    (Complex.exp (-Complex.I * (Gamma / 2)) * dotRC q E) • q.toC +
    (dotRC k E) • k.toC

/-- A recognized element type token: one of `"A"`, `"LC"`, `"C"`. -/
def goodType (el : Element) : Prop :=
  el.type = "A" ∨ el.type = "LC" ∨ el.type = "C"

instance (el : Element) : Decidable (goodType el) := by
  unfold goodType; infer_instance

/-- Loop body of `run_rot_AC.Tleak_single_lambda` (source): per-element phase
retardation, operator application, and transversality re-projection. -/
def Tleak_single_lambda_step (core : Core) (theta_deg phi_deg lam : ℝ)
    (k : Vec3) (wl_key : String) (E : CVec3) (el : Element) :
    Except String CVec3 := do
  let noNe := core.neNoForWl el wl_key
  let no := noNe.1
  let ne := noNe.2
  let Gamma ←
    if el.type = "A" ∨ el.type = "LC" then
      let alpha := core.axisAzimuthDeg el.axis
      let phi_rel := phi_deg - alpha
      Except.ok (core.eq3a_Gamma_A theta_deg phi_rel lam el.d no ne)
    else if el.type = "C" then
      Except.ok (core.eq3b_Gamma_C theta_deg lam el.d no ne)
    else
      Except.error ("Unknown element type: " ++ el.type)
  let E := retarder_matrix k el.axis Gamma E
  Except.ok (E - (dotRC k E) • k.toC)

/-- `run_rot_AC.Tleak_single_lambda` (source): leakage transmittance at a
single wavelength key. -/
def Tleak_single_lambda (core : Core) (theta_deg phi_deg : ℝ)
    (stack : List Element) (c1 c2 : Vec3) (wl_key : String) :
    Except String ℝ := do
  let k := k_hat theta_deg phi_deg
  let o1 := o_axis_Otype k c1
  let o2 := o_axis_Otype k c2
  let lam := core.wlM wl_key
  let E ← stack.foldlM (Tleak_single_lambda_step core theta_deg phi_deg lam k wl_key) o1.toC
  Except.ok (Complex.normSq (dotRC o2 E))

/-- `run_dispersion_updated.BGR_WL` (source): the primary wavelengths (nm). -/
def BGR_WL : List ℝ := [450, 546, 610]

/-- `np.interp` restricted to three sample points, as used by
`_interp_scale`: piecewise-linear with flat clamping outside `[x0, x2]`. -/
def np_interp3 (x x0 x1 x2 y0 y1 y2 : ℝ) : ℝ :=
  if x < x0 then y0
  else if x ≤ x1 then y0 + (y1 - y0) * (x - x0) / (x1 - x0)
  else if x ≤ x2 then y1 + (y2 - y1) * (x - x1) / (x2 - x1)
  else y2

/-- `run_dispersion_updated._interp_scale` (source): linear interpolation of
the `{B, G, R}` scale factors at the primaries 450/546/610 nm. -/
def _interp_scale (lam_nm : ℝ) (s : ScaleBGR) : ℝ :=
  np_interp3 lam_nm 450 546 610 s.B s.G s.R

/-- `run_dispersion_updated._dn_scale_table` (source): the dn-scale table of a
dispersion mode; unknown modes are a `ValueError`. -/
def _dn_scale_table (core : Core) (mode : String) :
    Except String (String → ScaleBGR) :=
  if mode = "flat" then Except.ok fun _ => ⟨1, 1, 1⟩
  else if mode = "matched" then Except.ok core.dnScaleMatched
  else if mode = "mismatched" then Except.ok core.dnScaleMismatched
  else if mode = "current" then Except.ok core.dnScaleCurrent
  else Except.error ("Unknown dispersion mode: " ++ mode)

/-- `run_dispersion_updated.ne_no_for_lambda` (source): `(no, ne)` at a
continuous wavelength, the G-value birefringence scaled by the interpolated
per-type factor for non-flat modes. -/
def ne_no_for_lambda (core : Core) (el : Element) (lam_nm : ℝ)
    (disp_mode : String) : Except String (ℝ × ℝ) :=
  let no := el.no
  let dnG := el.ne - no
  if disp_mode = "flat" then Except.ok (no, no + dnG)
  else do
    let tab ← _dn_scale_table core disp_mode
    let s := _interp_scale lam_nm (tab el.type)
    Except.ok (no, no + dnG * s)

/-- Loop body of `run_dispersion_updated.Tleak_stack_mono` (source). -/
def Tleak_stack_mono_step (core : Core) (theta_deg phi_deg lam_nm : ℝ)
    (disp_mode : String) (lam : ℝ) (k : Vec3) (E : CVec3) (el : Element) :
    Except String CVec3 :=
  match ne_no_for_lambda core el lam_nm disp_mode with
  | .error e => .error e
  | .ok noNe => do
  let no := noNe.1
  let ne := noNe.2
  let Gamma ←
    if el.type = "A" ∨ el.type = "LC" then
      let alpha := core.axisAzimuthDeg el.axis
      let phi_rel := phi_deg - alpha
      Except.ok (core.eq3a_Gamma_A theta_deg phi_rel lam el.d no ne)
    else if el.type = "C" then
      Except.ok (core.eq3b_Gamma_C theta_deg lam el.d no ne)
    else
      Except.error ("Unknown element type: " ++ el.type)
  let E := retarder_matrix k el.axis Gamma E
  Except.ok (E - (dotRC k E) • k.toC)

/-- `run_dispersion_updated.Tleak_stack_mono` (source): monochromatic leakage
at wavelength `lam_nm` (nm) under a dispersion mode. -/
def Tleak_stack_mono (core : Core) (theta_deg phi_deg : ℝ)
    (stack : List Element) (c1 c2 : Vec3) (lam_nm : ℝ) (disp_mode : String) :
    Except String ℝ := do
  let k := k_hat theta_deg phi_deg
  let o1 := o_axis_Otype k c1
  let o2 := o_axis_Otype k c2
  let lam := lam_nm * 1e-9
  let E ← stack.foldlM
    (Tleak_stack_mono_step core theta_deg phi_deg lam_nm disp_mode lam k) o1.toC
  Except.ok (Complex.normSq (dotRC o2 E))

/-- `run_dispersion_updated.Tleak_stack_W` (source): white leakage, the
`B/G/R`-weighted average of monochromatic leakages with the weight sum
floored at `1e-30`. -/
def Tleak_stack_W (core : Core) (theta_deg phi_deg : ℝ) (stack : List Element)
    (c1 c2 : Vec3) (disp_mode : String) (wl_keys : List String := WL_KEYS)
    (wl_nm_map : String → ℝ := WL_NM) (wl_weights : String → ℝ := WL_WEIGHTS) :
    Except String ℝ := do
  let sums ← wl_keys.foldlM
    (fun (acc : ℝ × ℝ) key => do
      let lam_nm := wl_nm_map key
      let w := wl_weights key
      let T ← Tleak_stack_mono core theta_deg phi_deg stack c1 c2 lam_nm disp_mode
      Except.ok (acc.1 + w * T, acc.2 + w))
    ((0 : ℝ), (0 : ℝ))
  Except.ok (sums.1 / max sums.2 1e-30)

/-- `run_dispersion_updated.CR_W` (source). -/
def CR_W (core : Core) (theta_deg phi_deg : ℝ) (stack : List Element)
    (c1 c2 : Vec3) (disp_mode : String) : Except String ℝ := do
  let T ← Tleak_stack_W core theta_deg phi_deg stack c1 c2 disp_mode
  Except.ok (core.CR_from_Tleak T)

/-- `run_dispersion_updated.CR_mono` (source). -/
def CR_mono (core : Core) (theta_deg phi_deg : ℝ) (stack : List Element)
    (c1 c2 : Vec3) (lam_nm : ℝ) (disp_mode : String) : Except String ℝ := do
  let T ← Tleak_stack_mono core theta_deg phi_deg stack c1 c2 lam_nm disp_mode
  Except.ok (core.CR_from_Tleak T)

/-- `np.arange(start, stop, step)` for positive `step`: the
`⌈(stop − start)/step⌉` values `start + i·step`. -/
def np_arange (start stop step : ℝ) : List ℝ :=
  (List.range (Int.ceil ((stop - start) / step)).toNat).map
    fun i : ℕ => start + (i : ℝ) * step

/-- `run_dispersion_updated.compute_CR_grid_W` (source): the ISO-CR polar grid
for white evaluation: `(thetas, phis, CR)` with
`CR[i][j] = CR_W(thetas[i], phis[j], …)`. -/
def compute_CR_grid_W (core : Core) (stack : List Element) (c1 c2 : Vec3)
    (disp_mode : String) (theta_max dtheta dphi : ℝ) :
    List ℝ × List ℝ × List (List (Except String ℝ)) :=
  let thetas := np_arange 0 (theta_max + 1e-12) dtheta
  let phis := np_arange 0 (360 + 1e-12) dphi
  (thetas, phis,
   thetas.map fun th => phis.map fun ph => CR_W core th ph stack c1 c2 disp_mode)

/-- `run_dispersion_updated.compute_CR_grid_mono` (source). -/
def compute_CR_grid_mono (core : Core) (stack : List Element) (c1 c2 : Vec3)
    (lam_nm : ℝ) (disp_mode : String) (theta_max dtheta dphi : ℝ) :
    List ℝ × List ℝ × List (List (Except String ℝ)) :=
  let thetas := np_arange 0 (theta_max + 1e-12) dtheta
  let phis := np_arange 0 (360 + 1e-12) dphi
  (thetas, phis,
   thetas.map fun th =>
     phis.map fun ph => CR_mono core th ph stack c1 c2 lam_nm disp_mode)

/-- Loop body of `ips_stokes_trace.trace_stokes_per_wavelength` (source):
applies one element, re-projects, and appends the element's StokesPoint. -/
def trace_step (core : Core) (theta_deg phi_deg lam : ℝ) (k u v : Vec3)
    (wl_key : String) (st : CVec3 × List StokesPoint) (iel : ℕ × Element) :
    Except String (CVec3 × List StokesPoint) := do
  let noNe := core.neNoForWl iel.2 wl_key
  let no := noNe.1
  let ne := noNe.2
  let Gamma ←
    if iel.2.type = "A" ∨ iel.2.type = "LC" then
      let alpha := core.axisAzimuthDeg iel.2.axis
      let phi_rel := phi_deg - alpha
      Except.ok (core.eq3a_Gamma_A theta_deg phi_rel lam iel.2.d no ne)
    else if iel.2.type = "C" then
      Except.ok (core.eq3b_Gamma_C theta_deg lam iel.2.d no ne)
    else
      Except.error ("Unknown element type: " ++ iel.2.type)
  let E := retarder_matrix k iel.2.axis Gamma st.1
  let E := E - (dotRC k E) • k.toC
  let S := stokes_from_E E k u v
  Except.ok (E, st.2 ++ [⟨"el#" ++ toString iel.1 ++ "_" ++ iel.2.type, wl_key,
                          S.1, S.2.1, S.2.2.1, S.2.2.2⟩])

/-- `ips_stokes_trace.trace_stokes_per_wavelength` (source): one StokesPoint
after the input polarizer and after each element, for each wavelength key. -/
def trace_stokes_per_wavelength (core : Core) (theta_deg phi_deg : ℝ)
    (stack : List Element) (c1 c2 : Vec3) (basis : String := "lab")
    (wl_keys : List String := WL_KEYS) : Except String (List StokesPoint) := do
  let k := k_hat theta_deg phi_deg
  let uv ← transverse_basis k basis (some c1) (some c2)
  let u := uv.1
  let v := uv.2
  let o1 := o_axis_Otype k c1
  let E0 := o1.toC
  let inPts := wl_keys.map fun wl =>
    let S := stokes_from_E E0 k u v
    (⟨"POL_in", wl, S.1, S.2.1, S.2.2.1, S.2.2.2⟩ : StokesPoint)
  let elPts ← wl_keys.foldlM
    (fun (acc : List StokesPoint) wl => do
      let lam := core.wlM wl
      let res ← stack.enum.foldlM
        (trace_step core theta_deg phi_deg lam k u v wl) (E0, [])
      Except.ok (acc ++ res.2))
    []
  Except.ok (inPts ++ elPts)

/-- First-seen-order list of distinct labels of a trace (the label grouping
loop of `trace_stokes_white`). -/
def firstSeenLabels (pts : List StokesPoint) : List String :=
  pts.foldl (fun ls p => if p.label ∈ ls then ls else ls ++ [p.label]) []

/-- Weighted Stokes sums `(S0t, S1t, S2t, S3t)` of the points carrying one
label (the accumulation loop of `trace_stokes_white`). -/
def stokesSums (pts : List StokesPoint) (wl_weights : String → ℝ)
    (lab : String) : ℝ × ℝ × ℝ × ℝ :=
  pts.foldl
    (fun (a : ℝ × ℝ × ℝ × ℝ) p =>
      if p.label = lab then
        let w := wl_weights p.wl_key
        (a.1 + w * p.S0, a.2.1 + w * p.S1, a.2.2.1 + w * p.S2, a.2.2.2 + w * p.S3)
      else a)
    (0, 0, 0, 0)

/-- One output row of `trace_stokes_white` (source):
`{label, S0_sum, s1, s2, s3}`. -/
structure WhiteRow where
  label : String
  S0_sum : ℝ
  s1 : ℝ
  s2 : ℝ
  s3 : ℝ

/-- Row construction of `trace_stokes_white` (source): weighted Stokes sums
normalized by `max(S0t, 1e-30)`. -/
def whiteRow (pts : List StokesPoint) (wl_weights : String → ℝ)
    (lab : String) : WhiteRow :=
  let s := stokesSums pts wl_weights lab
  let denom := max s.1 1e-30
  ⟨lab, s.1, s.2.1 / denom, s.2.2.1 / denom, s.2.2.2 / denom⟩

/-- `ips_stokes_trace.trace_stokes_white` (source): white-averaged normalized
Stokes rows, grouped by stage label in first-seen order. -/
def trace_stokes_white (core : Core) (theta_deg phi_deg : ℝ)
    (stack : List Element) (c1 c2 : Vec3) (basis : String := "lab")
    (wl_keys : List String := WL_KEYS)
    (wl_weights : String → ℝ := WL_WEIGHTS) :
    Except String (List WhiteRow) := do
  let pts ← trace_stokes_per_wavelength core theta_deg phi_deg stack c1 c2 basis wl_keys
  Except.ok ((firstSeenLabels pts).map (whiteRow pts wl_weights))

theorem Vec3.one_smul (a : Vec3) : (1 : ℝ) • a = a := by
  refine Vec3.ext_iff.mpr ⟨?_, ?_, ?_⟩ <;> simp

theorem Vec3.zero_smul (a : Vec3) : (0 : ℝ) • a = 0 := by
  refine Vec3.ext_iff.mpr ⟨?_, ?_, ?_⟩ <;> simp

theorem Vec3.sub_zero (a : Vec3) : a - 0 = a := by
  refine Vec3.ext_iff.mpr ⟨?_, ?_, ?_⟩ <;> simp

theorem pyNormalize_of_norm_one {v : Vec3} (h : v.norm = 1) : pyNormalize v = v := by
  unfold pyNormalize
  rw [h, max_eq_left (by norm_num : (1e-15 : ℝ) ≤ 1)]
  norm_num [Vec3.one_smul]

/-- When the norm is at least the epsilon floor, `_normalize` is exact
normalization. -/
theorem pyNormalize_of_le_norm {v : Vec3} (h : 1e-15 ≤ v.norm) :
    pyNormalize v = (1 / v.norm) • v := by
  unfold pyNormalize
  rw [max_eq_left h]

theorem k_hat_norm2 (theta_deg phi_deg : ℝ) : (k_hat theta_deg phi_deg).norm2 = 1 := by
  unfold k_hat Vec3.norm2
  simp only
  have ht := Real.sin_sq_add_cos_sq (theta_deg * Real.pi / 180)
  have hp := Real.sin_sq_add_cos_sq (phi_deg * Real.pi / 180)
  nlinarith [ht, hp]

theorem k_hat_norm (theta_deg phi_deg : ℝ) : (k_hat theta_deg phi_deg).norm = 1 :=
  Vec3.norm_eq_one_iff.mpr (k_hat_norm2 theta_deg phi_deg)

theorem k_hat_zero : k_hat 0 0 = ⟨0, 0, 1⟩ := by
  unfold k_hat
  refine Vec3.ext_iff.mpr ⟨?_, ?_, ?_⟩ <;> simp

/-- Algebraic expansion of the squared norm of a projection residue. -/
theorem Vec3.norm2_sub_smul (a b : Vec3) (t : ℝ) :
    norm2 (a - t • b) = norm2 a - 2 * t * dot a b + t ^ 2 * norm2 b := by
  simp only [norm2, dot, sub_x, sub_y, sub_z, smul_x, smul_y, smul_z]; ring

/-- The projection residue is orthogonal to a unit `k`. -/
theorem dot_proj_eq_zero {k : Vec3} (c : Vec3) (hk : Vec3.norm2 k = 1) :
    Vec3.dot (c - (Vec3.dot c k) • k) k = 0 := by
  rw [Vec3.dot_sub_left, Vec3.dot_smul_left, ← Vec3.norm2_eq_dot, hk]
  ring

theorem norm2_proj {k : Vec3} (c : Vec3) (hk : Vec3.norm2 k = 1) :
    Vec3.norm2 (c - (Vec3.dot c k) • k) = Vec3.norm2 c - (Vec3.dot c k) ^ 2 := by
  rw [Vec3.norm2_sub_smul, hk]; ring

theorem norm2_normalize {w : Vec3} (hw : Vec3.norm2 w ≠ 0) :
    Vec3.norm2 ((1 / w.norm) • w) = 1 := by
  have h0 : 0 < Vec3.norm2 w := lt_of_le_of_ne (Vec3.norm2_nonneg w) (Ne.symm hw)
  have hn : w.norm ^ 2 = Vec3.norm2 w := Real.sq_sqrt h0.le
  have hnpos : 0 < w.norm := Real.sqrt_pos.mpr h0
  rw [Vec3.norm2_smul]
  field_simp
  rw [hn]

theorem o_axis_norm2 {k c : Vec3} (hk : Vec3.norm2 k = 1)
    (h : c - (Vec3.dot c k) • k ≠ 0) : Vec3.norm2 (o_axis_Otype k c) = 1 := by
  unfold o_axis_Otype
  exact norm2_normalize (fun hz => h (Vec3.norm2_zero_iff.mp hz))

theorem o_axis_dot_k {k : Vec3} (c : Vec3) (hk : Vec3.norm2 k = 1) :
    Vec3.dot (o_axis_Otype k c) k = 0 := by
  unfold o_axis_Otype
  rw [Vec3.dot_smul_left, dot_proj_eq_zero c hk, mul_zero]

/-- `np.dot` of a real vector with the complexification of another. -/
theorem dotRC_toC (a b : Vec3) : dotRC a b.toC = ((Vec3.dot a b : ℝ) : ℂ) := by
  simp [dotRC, Vec3.toC, Vec3.dot]

/-- The re-projection `E − (E·k)k` is exactly transverse to a unit `k`. -/
theorem dotRC_proj_eq_zero {k : Vec3} (hk : Vec3.norm2 k = 1) (E : CVec3) :
    dotRC k (E - (dotRC k E) • k.toC) = 0 := by
  have hc : ((k.x : ℂ) * k.x + (k.y : ℂ) * k.y + (k.z : ℂ) * k.z) = 1 := by
    have : ((k.x * k.x + k.y * k.y + k.z * k.z : ℝ) : ℂ) = ((1 : ℝ) : ℂ) := by
      exact_mod_cast congrArg (fun t : ℝ => (t : ℂ)) hk
    push_cast at this
    linear_combination this
  simp only [dotRC, CVec3.csub_x, CVec3.csub_y, CVec3.csub_z, CVec3.csmul_x,
    CVec3.csmul_y, CVec3.csmul_z, Vec3.toC]
  linear_combination (-((k.x : ℂ) * E.x + (k.y : ℂ) * E.y + (k.z : ℂ) * E.z)) * hc

/-- A fold in the `Except` monad succeeds when every step succeeds. -/
theorem foldlM_ok_of_all {α σ : Type} (f : σ → α → Except String σ)
    (P : α → Prop) (hf : ∀ s a, P a → ∃ s', f s a = Except.ok s') :
    ∀ (l : List α) (s0 : σ), (∀ a ∈ l, P a) → ∃ s', l.foldlM f s0 = Except.ok s' := by
  intro l
  induction l with
  | nil => intro s0 _; exact ⟨s0, rfl⟩
  | cons a l ih =>
    intro s0 hl
    obtain ⟨s1, h1⟩ := hf s0 a (hl a (List.mem_cons_self a l))
    obtain ⟨s', h'⟩ := ih s1 fun b hb => hl b (List.mem_cons_of_mem a hb)
    refine ⟨s', ?_⟩
    rw [List.foldlM_cons, h1]
    exact h'

/-- A fold in the `Except` monad fails with the first failing step's error,
when the error does not depend on the accumulated state. -/
theorem foldlM_error_first {α σ : Type} (f : σ → α → Except String σ)
    (P : α → Prop) (hf : ∀ s a, P a → ∃ s', f s a = Except.ok s')
    (msg : α → String) (hferr : ∀ s a, ¬ P a → f s a = Except.error (msg a)) :
    ∀ (pre : List α) (b : α) (post : List α) (s0 : σ),
      (∀ a ∈ pre, P a) → ¬ P b →
      (pre ++ b :: post).foldlM f s0 = Except.error (msg b) := by
  intro pre
  induction pre with
  | nil =>
    intro b post s0 _ hb
    rw [List.nil_append, List.foldlM_cons, hferr s0 b hb]
    rfl
  | cons a pre ih =>
    intro b post s0 hpre hb
    obtain ⟨s1, h1⟩ := hf s0 a (hpre a (List.mem_cons_self a pre))
    rw [List.cons_append, List.foldlM_cons, h1]
    exact ih b post s1 (fun c hc => hpre c (List.mem_cons_of_mem a hc)) hb

/-- Split a list at its first entry violating a decidable predicate. -/
theorem exists_first_bad {α : Type} (P : α → Prop) [DecidablePred P] :
    ∀ (l : List α), (∃ a ∈ l, ¬ P a) →
      ∃ pre b post, l = pre ++ b :: post ∧ (∀ a ∈ pre, P a) ∧ ¬ P b := by
  intro l
  induction l with
  | nil => rintro ⟨a, ha, -⟩; exact absurd ha (List.not_mem_nil a)
  | cons a l ih =>
    intro h
    by_cases hPa : P a
    · have : ∃ b ∈ l, ¬ P b := by
        obtain ⟨b, hb, hnb⟩ := h
        rcases List.mem_cons.mp hb with rfl | hbl
        · exact absurd hPa hnb
        · exact ⟨b, hbl, hnb⟩
      obtain ⟨pre, b, post, hl, hpre, hb⟩ := ih this
      refine ⟨a :: pre, b, post, by rw [hl, List.cons_append], ?_, hb⟩
      intro c hc
      rcases List.mem_cons.mp hc with rfl | hcl
      · exact hPa
      · exact hpre c hcl
    · exact ⟨[], a, l, rfl, by simp, hPa⟩

/-- The final state of a nonempty fold in the `Except` monad satisfies any
postcondition that every successful step establishes. -/
theorem foldlM_last_inv {α σ : Type} (f : σ → α → Except String σ)
    (Q : σ → Prop) (hf : ∀ s a s', f s a = Except.ok s' → Q s') :
    ∀ (l : List α) (s0 s' : σ), l ≠ [] → l.foldlM f s0 = Except.ok s' → Q s' := by
  intro l
  induction l with
  | nil => intro s0 s' h; exact absurd rfl h
  | cons a l ih =>
    intro s0 s' _ h
    rw [List.foldlM_cons] at h
    cases hfa : f s0 a with
    | error e => rw [hfa] at h; exact Except.noConfusion h
    | ok s1 =>
      rw [hfa] at h
      rcases eq_or_ne l [] with rfl | hl
      · rw [show ((Except.ok s1 >>= fun s => List.foldlM f s []) : Except String σ) =
              Except.ok s1 from rfl] at h
        injection h with h2
        exact h2 ▸ hf s0 a s1 hfa
      · exact ih s1 s' hl h

/-- A recognized dispersion mode token. -/
def goodMode (mode : String) : Prop :=
  mode = "flat" ∨ mode = "matched" ∨ mode = "mismatched" ∨ mode = "current"

theorem Tleak_single_lambda_step_ok (core : Core) (theta_deg phi_deg lam : ℝ)
    (k : Vec3) (wl_key : String) (E : CVec3) (el : Element) (h : goodType el) :
    ∃ E', Tleak_single_lambda_step core theta_deg phi_deg lam k wl_key E el =
      Except.ok E' := by
  unfold Tleak_single_lambda_step
  split
  · exact ⟨_, rfl⟩
  · split
    · exact ⟨_, rfl⟩
    · rename_i h1 h2
      rcases h with h | h | h
      · exact absurd (Or.inl h) h1
      · exact absurd (Or.inr h) h1
      · exact absurd h h2

theorem Tleak_single_lambda_step_err (core : Core) (theta_deg phi_deg lam : ℝ)
    (k : Vec3) (wl_key : String) (E : CVec3) (el : Element) (h : ¬ goodType el) :
    Tleak_single_lambda_step core theta_deg phi_deg lam k wl_key E el =
      Except.error ("Unknown element type: " ++ el.type) := by
  have h1 : ¬ (el.type = "A" ∨ el.type = "LC") := by
    rintro (hc | hc)
    · exact h (Or.inl hc)
    · exact h (Or.inr (Or.inl hc))
  have h2 : ¬ el.type = "C" := fun hc => h (Or.inr (Or.inr hc))
  unfold Tleak_single_lambda_step
  rw [if_neg h1, if_neg h2]
  rfl

theorem Tleak_single_lambda_step_transverse {k : Vec3} (hk : Vec3.norm2 k = 1)
    (core : Core) (theta_deg phi_deg lam : ℝ) (wl_key : String) (E E' : CVec3)
    (el : Element)
    (h : Tleak_single_lambda_step core theta_deg phi_deg lam k wl_key E el =
      Except.ok E') : dotRC k E' = 0 := by
  unfold Tleak_single_lambda_step at h
  split at h
  · injection h with h'
    exact h' ▸ dotRC_proj_eq_zero hk _
  · split at h
    · injection h with h'
      exact h' ▸ dotRC_proj_eq_zero hk _
    · exact Except.noConfusion h

theorem ne_no_for_lambda_ok (core : Core) (el : Element) (lam_nm : ℝ)
    {mode : String} (hmode : goodMode mode) :
    ∃ p, ne_no_for_lambda core el lam_nm mode = Except.ok p := by
  rcases hmode with h | h | h | h <;> subst h <;> exact ⟨_, rfl⟩

theorem Tleak_stack_mono_step_ok (core : Core) (theta_deg phi_deg lam_nm : ℝ)
    {disp_mode : String} (hmode : goodMode disp_mode) (lam : ℝ) (k : Vec3)
    (E : CVec3) (el : Element) (h : goodType el) :
    ∃ E', Tleak_stack_mono_step core theta_deg phi_deg lam_nm disp_mode lam k E el =
      Except.ok E' := by
  obtain ⟨p, hp⟩ := ne_no_for_lambda_ok core el lam_nm hmode
  simp only [Tleak_stack_mono_step, hp]
  split
  · exact ⟨_, rfl⟩
  · split
    · exact ⟨_, rfl⟩
    · rename_i h1 h2
      rcases h with h | h | h
      · exact absurd (Or.inl h) h1
      · exact absurd (Or.inr h) h1
      · exact absurd h h2

theorem Tleak_stack_mono_step_transverse {k : Vec3} (hk : Vec3.norm2 k = 1)
    (core : Core) (theta_deg phi_deg lam_nm : ℝ) (disp_mode : String) (lam : ℝ)
    (E E' : CVec3) (el : Element)
    (h : Tleak_stack_mono_step core theta_deg phi_deg lam_nm disp_mode lam k E el =
      Except.ok E') : dotRC k E' = 0 := by
  cases hp : ne_no_for_lambda core el lam_nm disp_mode with
  | error e =>
    simp only [Tleak_stack_mono_step, hp] at h
    exact Except.noConfusion h
  | ok p =>
    simp only [Tleak_stack_mono_step, hp] at h
    split at h
    · injection h with h'
      exact h' ▸ dotRC_proj_eq_zero hk _
    · split at h
      · injection h with h'
        exact h' ▸ dotRC_proj_eq_zero hk _
      · exact Except.noConfusion h

theorem trace_step_transverse {k : Vec3} (hk : Vec3.norm2 k = 1)
    (core : Core) (theta_deg phi_deg lam : ℝ) (u v : Vec3) (wl_key : String)
    (st st' : CVec3 × List StokesPoint) (iel : ℕ × Element)
    (h : trace_step core theta_deg phi_deg lam k u v wl_key st iel =
      Except.ok st') : dotRC k st'.1 = 0 := by
  unfold trace_step at h
  split at h
  · injection h with h'
    exact h' ▸ dotRC_proj_eq_zero hk _
  · split at h
    · injection h with h'
      exact h' ▸ dotRC_proj_eq_zero hk _
    · exact Except.noConfusion h

theorem trace_step_ok (core : Core) (theta_deg phi_deg lam : ℝ) (k u v : Vec3)
    (wl_key : String) (st : CVec3 × List StokesPoint) (iel : ℕ × Element)
    (h : goodType iel.2) :
    ∃ st', trace_step core theta_deg phi_deg lam k u v wl_key st iel =
      Except.ok st' := by
  unfold trace_step
  split
  · exact ⟨_, rfl⟩
  · split
    · exact ⟨_, rfl⟩
    · rename_i h1 h2
      rcases h with h | h | h
      · exact absurd (Or.inl h) h1
      · exact absurd (Or.inr h) h1
      · exact absurd h h2

theorem trace_step_err (core : Core) (theta_deg phi_deg lam : ℝ) (k u v : Vec3)
    (wl_key : String) (st : CVec3 × List StokesPoint) (iel : ℕ × Element)
    (h : ¬ goodType iel.2) :
    trace_step core theta_deg phi_deg lam k u v wl_key st iel =
      Except.error ("Unknown element type: " ++ iel.2.type) := by
  have h1 : ¬ (iel.2.type = "A" ∨ iel.2.type = "LC") := by
    rintro (hc | hc)
    · exact h (Or.inl hc)
    · exact h (Or.inr (Or.inl hc))
  have h2 : ¬ iel.2.type = "C" := fun hc => h (Or.inr (Or.inr hc))
  unfold trace_step
  rw [if_neg h1, if_neg h2]
  rfl

theorem Tleak_stack_mono_nil (core : Core) (theta_deg phi_deg lam_nm : ℝ)
    (mode : String) (c1 c2 : Vec3) :
    Tleak_stack_mono core theta_deg phi_deg [] c1 c2 lam_nm mode =
      Except.ok (Complex.normSq (dotRC (o_axis_Otype (k_hat theta_deg phi_deg) c2)
        ((o_axis_Otype (k_hat theta_deg phi_deg) c1).toC))) := rfl

theorem Tleak_single_lambda_nil (core : Core) (theta_deg phi_deg : ℝ)
    (wl_key : String) (c1 c2 : Vec3) :
    Tleak_single_lambda core theta_deg phi_deg [] c1 c2 wl_key =
      Except.ok (Complex.normSq (dotRC (o_axis_Otype (k_hat theta_deg phi_deg) c2)
        ((o_axis_Otype (k_hat theta_deg phi_deg) c1).toC))) := rfl

theorem normSq_dotRC_toC (a b : Vec3) :
    Complex.normSq (dotRC a b.toC) = (Vec3.dot a b) ^ 2 := by
  rw [dotRC_toC, Complex.normSq_ofReal]
  ring

theorem o_axis_z_x : o_axis_Otype ⟨0, 0, 1⟩ ⟨1, 0, 0⟩ = ⟨1, 0, 0⟩ := by
  have h1 : Vec3.dot ⟨1, 0, 0⟩ ⟨0, 0, 1⟩ = 0 := by simp [Vec3.dot]
  have h2 : Vec3.norm ⟨1, 0, 0⟩ = 1 := by
    rw [Vec3.norm_eq_one_iff]; simp [Vec3.norm2]
  simp only [o_axis_Otype, h1, Vec3.zero_smul, Vec3.sub_zero, h2]
  norm_num [Vec3.one_smul]

theorem mono_nil_parallel_x (lam_nm : ℝ) (mode : String) :
    Tleak_stack_mono defaultCore 0 0 [] ⟨1, 0, 0⟩ ⟨1, 0, 0⟩ lam_nm mode =
      Except.ok 1 := by
  rw [Tleak_stack_mono_nil, k_hat_zero, o_axis_z_x, normSq_dotRC_toC]
  norm_num [Vec3.dot]

theorem norm_z_unit : Vec3.norm ⟨0, 0, 1⟩ = 1 := by
  rw [Vec3.norm_eq_one_iff]; simp [Vec3.norm2]

/-- C2: for every complex 3-vector `E`, unit direction `k` and basis vectors
`u`, `v`, `stokes_from_E` first replaces `E` by `E − (E·k)k` and then, with
`Eu = u·E`, `Ev = v·E`, returns exactly `S0 = |Eu|² + |Ev|²`,
`S1 = |Eu|² − |Ev|²`, `S2 = 2·Re(Eu·conj Ev)`, `S3 = 2·Im(Eu·conj Ev)`. -/
theorem stokes_from_E_formula (E : CVec3) (k u v : Vec3) (hk : Vec3.norm k = 1) :
    stokes_from_E E k u v =
      (Complex.normSq (dotRC u (E - (dotRC k E) • k.toC)) +
         Complex.normSq (dotRC v (E - (dotRC k E) • k.toC)),
       Complex.normSq (dotRC u (E - (dotRC k E) • k.toC)) -
         Complex.normSq (dotRC v (E - (dotRC k E) • k.toC)),
       2 * (dotRC u (E - (dotRC k E) • k.toC) *
         starRingEnd ℂ (dotRC v (E - (dotRC k E) • k.toC))).re,
       2 * (dotRC u (E - (dotRC k E) • k.toC) *
         starRingEnd ℂ (dotRC v (E - (dotRC k E) • k.toC))).im) := by
  simp only [stokes_from_E, pyNormalize_of_norm_one hk]

/-- Witness for C2 at the concrete input `E = (1, i, 0)`, `k = ẑ`, `u = x̂`,
`v = ŷ`. -/
theorem stokes_from_E_formula_witness :
    Vec3.norm ⟨0, 0, 1⟩ = 1 ∧
    stokes_from_E ⟨1, Complex.I, 0⟩ ⟨0, 0, 1⟩ ⟨1, 0, 0⟩ ⟨0, 1, 0⟩ =
      (Complex.normSq (dotRC ⟨1, 0, 0⟩
          (⟨1, Complex.I, 0⟩ - (dotRC ⟨0, 0, 1⟩ ⟨1, Complex.I, 0⟩) •
            (Vec3.toC ⟨0, 0, 1⟩))) +
         Complex.normSq (dotRC ⟨0, 1, 0⟩
          (⟨1, Complex.I, 0⟩ - (dotRC ⟨0, 0, 1⟩ ⟨1, Complex.I, 0⟩) •
            (Vec3.toC ⟨0, 0, 1⟩))),
       Complex.normSq (dotRC ⟨1, 0, 0⟩
          (⟨1, Complex.I, 0⟩ - (dotRC ⟨0, 0, 1⟩ ⟨1, Complex.I, 0⟩) •
            (Vec3.toC ⟨0, 0, 1⟩))) -
         Complex.normSq (dotRC ⟨0, 1, 0⟩
          (⟨1, Complex.I, 0⟩ - (dotRC ⟨0, 0, 1⟩ ⟨1, Complex.I, 0⟩) •
            (Vec3.toC ⟨0, 0, 1⟩))),
       2 * (dotRC ⟨1, 0, 0⟩
          (⟨1, Complex.I, 0⟩ - (dotRC ⟨0, 0, 1⟩ ⟨1, Complex.I, 0⟩) •
            (Vec3.toC ⟨0, 0, 1⟩)) *
         starRingEnd ℂ (dotRC ⟨0, 1, 0⟩
          (⟨1, Complex.I, 0⟩ - (dotRC ⟨0, 0, 1⟩ ⟨1, Complex.I, 0⟩) •
            (Vec3.toC ⟨0, 0, 1⟩)))).re,
       2 * (dotRC ⟨1, 0, 0⟩
          (⟨1, Complex.I, 0⟩ - (dotRC ⟨0, 0, 1⟩ ⟨1, Complex.I, 0⟩) •
            (Vec3.toC ⟨0, 0, 1⟩)) *
         starRingEnd ℂ (dotRC ⟨0, 1, 0⟩
          (⟨1, Complex.I, 0⟩ - (dotRC ⟨0, 0, 1⟩ ⟨1, Complex.I, 0⟩) •
            (Vec3.toC ⟨0, 0, 1⟩)))).im) :=
  ⟨norm_z_unit, stokes_from_E_formula ⟨1, Complex.I, 0⟩ ⟨0, 0, 1⟩ ⟨1, 0, 0⟩
    ⟨0, 1, 0⟩ norm_z_unit⟩

theorem div_max_abs_le_one {S0 Si : ℝ} (h0 : 0 ≤ S0) (h : Si ^ 2 ≤ S0 ^ 2) :
    |Si / max S0 1e-30| ≤ 1 := by
  have hm : (0 : ℝ) < max S0 1e-30 := lt_max_of_lt_right (by norm_num)
  have habs : |Si| ≤ S0 := by
    nlinarith [sq_abs Si, abs_nonneg Si, sq_nonneg (|Si| - S0), sq_nonneg (|Si| + S0)]
  rw [abs_div, abs_of_pos hm]
  exact div_le_one_of_le₀ (le_trans habs (le_max_left _ _)) hm.le

theorem stokes_quad_props (Eu Ev : ℂ) (lab wl : String) :
    0 ≤ Complex.normSq Eu + Complex.normSq Ev ∧
    (Complex.normSq Eu - Complex.normSq Ev) ^ 2 +
        (2 * (Eu * starRingEnd ℂ Ev).re) ^ 2 +
        (2 * (Eu * starRingEnd ℂ Ev).im) ^ 2 =
      (Complex.normSq Eu + Complex.normSq Ev) ^ 2 ∧
    |(StokesPoint.mk lab wl (Complex.normSq Eu + Complex.normSq Ev)
        (Complex.normSq Eu - Complex.normSq Ev)
        (2 * (Eu * starRingEnd ℂ Ev).re) (2 * (Eu * starRingEnd ℂ Ev).im)).s1| ≤ 1 ∧
    |(StokesPoint.mk lab wl (Complex.normSq Eu + Complex.normSq Ev)
        (Complex.normSq Eu - Complex.normSq Ev)
        (2 * (Eu * starRingEnd ℂ Ev).re) (2 * (Eu * starRingEnd ℂ Ev).im)).s2| ≤ 1 ∧
    |(StokesPoint.mk lab wl (Complex.normSq Eu + Complex.normSq Ev)
        (Complex.normSq Eu - Complex.normSq Ev)
        (2 * (Eu * starRingEnd ℂ Ev).re) (2 * (Eu * starRingEnd ℂ Ev).im)).s3| ≤ 1 := by
  have h0 : 0 ≤ Complex.normSq Eu + Complex.normSq Ev :=
    add_nonneg (Complex.normSq_nonneg _) (Complex.normSq_nonneg _)
  have hmul : Complex.normSq (Eu * starRingEnd ℂ Ev) =
      Complex.normSq Eu * Complex.normSq Ev := by
    rw [Complex.normSq_mul, Complex.normSq_conj]
  rw [Complex.normSq_apply] at hmul
  have hident : (Complex.normSq Eu - Complex.normSq Ev) ^ 2 +
      (2 * (Eu * starRingEnd ℂ Ev).re) ^ 2 +
      (2 * (Eu * starRingEnd ℂ Ev).im) ^ 2 =
      (Complex.normSq Eu + Complex.normSq Ev) ^ 2 := by
    linear_combination 4 * hmul
  have hb1 : (Complex.normSq Eu - Complex.normSq Ev) ^ 2 ≤
      (Complex.normSq Eu + Complex.normSq Ev) ^ 2 := by
    nlinarith [sq_nonneg (2 * (Eu * starRingEnd ℂ Ev).re),
      sq_nonneg (2 * (Eu * starRingEnd ℂ Ev).im)]
  have hb2 : (2 * (Eu * starRingEnd ℂ Ev).re) ^ 2 ≤
      (Complex.normSq Eu + Complex.normSq Ev) ^ 2 := by
    nlinarith [sq_nonneg (Complex.normSq Eu - Complex.normSq Ev),
      sq_nonneg (2 * (Eu * starRingEnd ℂ Ev).im)]
  have hb3 : (2 * (Eu * starRingEnd ℂ Ev).im) ^ 2 ≤
      (Complex.normSq Eu + Complex.normSq Ev) ^ 2 := by
    nlinarith [sq_nonneg (Complex.normSq Eu - Complex.normSq Ev),
      sq_nonneg (2 * (Eu * starRingEnd ℂ Ev).re)]
  exact ⟨h0, hident, div_max_abs_le_one h0 hb1, div_max_abs_le_one h0 hb2,
    div_max_abs_le_one h0 hb3⟩

/-- C10: every quadruple returned by `stokes_from_E` is fully polarized —
`S0 ≥ 0` and `S1² + S2² + S3² = S0²` exactly; consequently each normalized
component `Si / max(S0, 1e-30)` lies in `[−1, 1]`. -/
theorem stokes_from_E_fully_polarized (E : CVec3) (k u v : Vec3)
    (lab wl : String) :
    0 ≤ (stokes_from_E E k u v).1 ∧
    (stokes_from_E E k u v).2.1 ^ 2 + (stokes_from_E E k u v).2.2.1 ^ 2 +
        (stokes_from_E E k u v).2.2.2 ^ 2 = (stokes_from_E E k u v).1 ^ 2 ∧
    |(StokesPoint.mk lab wl (stokes_from_E E k u v).1 (stokes_from_E E k u v).2.1
        (stokes_from_E E k u v).2.2.1 (stokes_from_E E k u v).2.2.2).s1| ≤ 1 ∧
    |(StokesPoint.mk lab wl (stokes_from_E E k u v).1 (stokes_from_E E k u v).2.1
        (stokes_from_E E k u v).2.2.1 (stokes_from_E E k u v).2.2.2).s2| ≤ 1 ∧
    |(StokesPoint.mk lab wl (stokes_from_E E k u v).1 (stokes_from_E E k u v).2.1
        (stokes_from_E E k u v).2.2.1 (stokes_from_E E k u v).2.2.2).s3| ≤ 1 :=
  stokes_quad_props
    (dotRC u (E - (dotRC (pyNormalize k) E) • (pyNormalize k).toC))
    (dotRC v (E - (dotRC (pyNormalize k) E) • (pyNormalize k).toC)) lab wl

/-- C7: normalized-Stokes and white-average denominators are floored to
`1e-30` instead of raising — for every `StokesPoint` (including `S0 = 0`)
the normalized components divide by the strictly positive `max(S0, 1e-30)`,
and every white-trace row divides its weighted Stokes sums by the strictly
positive `max(S0t, 1e-30)`. -/
theorem stokes_denominators_floored :
    (∀ p : StokesPoint,
        0 < max p.S0 1e-30 ∧
        p.s1 = p.S1 / max p.S0 1e-30 ∧
        p.s2 = p.S2 / max p.S0 1e-30 ∧
        p.s3 = p.S3 / max p.S0 1e-30) ∧
    (∀ (lab wl : String) (S1 S2 S3 : ℝ),
        (StokesPoint.mk lab wl 0 S1 S2 S3).s1 = S1 / 1e-30 ∧
        (StokesPoint.mk lab wl 0 S1 S2 S3).s2 = S2 / 1e-30 ∧
        (StokesPoint.mk lab wl 0 S1 S2 S3).s3 = S3 / 1e-30) ∧
    (∀ (pts : List StokesPoint) (wts : String → ℝ) (lab : String),
        0 < max (stokesSums pts wts lab).1 1e-30 ∧
        whiteRow pts wts lab =
          ⟨lab, (stokesSums pts wts lab).1,
           (stokesSums pts wts lab).2.1 / max (stokesSums pts wts lab).1 1e-30,
           (stokesSums pts wts lab).2.2.1 / max (stokesSums pts wts lab).1 1e-30,
           (stokesSums pts wts lab).2.2.2 / max (stokesSums pts wts lab).1 1e-30⟩) ∧
    (∀ (core : Core) (theta_deg phi_deg : ℝ) (stack : List Element)
        (c1 c2 : Vec3) (basis : String) (wl_keys : List String)
        (wts : String → ℝ) (rows : List WhiteRow),
        trace_stokes_white core theta_deg phi_deg stack c1 c2 basis wl_keys wts =
          Except.ok rows →
        ∀ row ∈ rows, ∃ pts lab, row = whiteRow pts wts lab) := by
  have hmax : ∀ S0 : ℝ, (0 : ℝ) < max S0 1e-30 :=
    fun S0 => lt_max_of_lt_right (by norm_num)
  refine ⟨fun p => ⟨hmax _, rfl, rfl, rfl⟩, ?_, ?_, ?_⟩
  · intro lab wl S1 S2 S3
    have hz : max (0 : ℝ) 1e-30 = 1e-30 := max_eq_right (by norm_num)
    exact ⟨by rw [StokesPoint.s1, hz], by rw [StokesPoint.s2, hz],
      by rw [StokesPoint.s3, hz]⟩
  · intro pts wts lab
    exact ⟨hmax _, rfl⟩
  · intro core theta_deg phi_deg stack c1 c2 basis wl_keys wts rows h row hrow
    unfold trace_stokes_white at h
    cases hp : trace_stokes_per_wavelength core theta_deg phi_deg stack c1 c2
        basis wl_keys with
    | error e => rw [hp] at h; exact Except.noConfusion h
    | ok pts =>
      rw [hp] at h
      replace h : Except.ok ((firstSeenLabels pts).map (whiteRow pts wts)) =
          Except.ok rows := h
      injection h with h
      subst h
      obtain ⟨lab, -, rfl⟩ := List.mem_map.mp hrow
      exact ⟨pts, lab, rfl⟩

/-- The spec's dispersion scale rule, stated from the spec's words: the
piecewise-linear interpolation of the `{B, G, R}` factors at the primaries
450/546/610 nm, clamped flat (constant) below 450 nm and above 610 nm. -/
def specScale (sc : ScaleBGR) (lam : ℝ) : ℝ :=
  if lam ≤ 450 then sc.B
  else if lam ≤ 546 then sc.B + (sc.G - sc.B) * (lam - 450) / 96
  else if lam ≤ 610 then sc.G + (sc.R - sc.G) * (lam - 546) / 64
  else sc.R

/-- The source's `_interp_scale` (via `np.interp`) agrees with the spec's
clamped piecewise-linear rule everywhere. -/
theorem interp_scale_eq_specScale (lam : ℝ) (sc : ScaleBGR) :
    _interp_scale lam sc = specScale sc lam := by
  unfold _interp_scale np_interp3 specScale
  rcases lt_trichotomy lam 450 with h1 | h1 | h1
  · rw [if_pos h1, if_pos h1.le]
  · subst h1
    norm_num
  · rw [if_neg (not_lt.mpr h1.le), if_neg (not_le.mpr h1)]
    rcases le_or_lt lam 546 with h2 | h2
    · rw [if_pos h2, if_pos h2]
      norm_num
    · rw [if_neg (not_le.mpr h2), if_neg (not_le.mpr h2)]
      rcases le_or_lt lam 610 with h3 | h3
      · rw [if_pos h3, if_pos h3]
        norm_num
      · rw [if_neg (not_le.mpr h3), if_neg (not_le.mpr h3)]

/-- C4: for every element and continuous wavelength, the dispersion-scaled
indices are `(no, no + (ne_G − no)·s(λ))` with `s` the piecewise-linear
interpolation of the element type's `{B, G, R}` scale factors at 450/546/610
nm, clamped flat beyond the endpoints; in mode `"flat"` the element's
`(no, ne)` are returned unchanged. -/
theorem ne_no_for_lambda_spec (core : Core) (el : Element) (lam_nm : ℝ) :
    ne_no_for_lambda core el lam_nm "flat" = Except.ok (el.no, el.ne) ∧
    ne_no_for_lambda core el lam_nm "matched" =
      Except.ok (el.no, el.no +
        (el.ne - el.no) * specScale (core.dnScaleMatched el.type) lam_nm) ∧
    ne_no_for_lambda core el lam_nm "mismatched" =
      Except.ok (el.no, el.no +
        (el.ne - el.no) * specScale (core.dnScaleMismatched el.type) lam_nm) ∧
    ne_no_for_lambda core el lam_nm "current" =
      Except.ok (el.no, el.no +
        (el.ne - el.no) * specScale (core.dnScaleCurrent el.type) lam_nm) ∧
    (∀ sc : ScaleBGR,
      (lam_nm ≤ 450 → specScale sc lam_nm = sc.B) ∧
      (610 ≤ lam_nm → specScale sc lam_nm = sc.R) ∧
      specScale sc 450 = sc.B ∧ specScale sc 546 = sc.G ∧ specScale sc 610 = sc.R) := by
  refine ⟨?_, ?_, ?_, ?_, ?_⟩
  · show Except.ok (el.no, el.no + (el.ne - el.no)) = _
    norm_num
  · show (do
      let tab ← _dn_scale_table core "matched"
      Except.ok (el.no, el.no + (el.ne - el.no) * _interp_scale lam_nm (tab el.type))) = _
    rw [show _dn_scale_table core "matched" = Except.ok core.dnScaleMatched from rfl]
    rw [show ((Except.ok core.dnScaleMatched : Except String (String → ScaleBGR)) >>=
        fun tab => Except.ok (el.no, el.no +
          (el.ne - el.no) * _interp_scale lam_nm (tab el.type))) =
      Except.ok (el.no, el.no + (el.ne - el.no) *
        _interp_scale lam_nm (core.dnScaleMatched el.type)) from rfl]
    rw [interp_scale_eq_specScale]
  · show (do
      let tab ← _dn_scale_table core "mismatched"
      Except.ok (el.no, el.no + (el.ne - el.no) * _interp_scale lam_nm (tab el.type))) = _
    rw [show _dn_scale_table core "mismatched" = Except.ok core.dnScaleMismatched from rfl]
    rw [show ((Except.ok core.dnScaleMismatched : Except String (String → ScaleBGR)) >>=
        fun tab => Except.ok (el.no, el.no +
          (el.ne - el.no) * _interp_scale lam_nm (tab el.type))) =
      Except.ok (el.no, el.no + (el.ne - el.no) *
        _interp_scale lam_nm (core.dnScaleMismatched el.type)) from rfl]
    rw [interp_scale_eq_specScale]
  · show (do
      let tab ← _dn_scale_table core "current"
      Except.ok (el.no, el.no + (el.ne - el.no) * _interp_scale lam_nm (tab el.type))) = _
    rw [show _dn_scale_table core "current" = Except.ok core.dnScaleCurrent from rfl]
    rw [show ((Except.ok core.dnScaleCurrent : Except String (String → ScaleBGR)) >>=
        fun tab => Except.ok (el.no, el.no +
          (el.ne - el.no) * _interp_scale lam_nm (tab el.type))) =
      Except.ok (el.no, el.no + (el.ne - el.no) *
        _interp_scale lam_nm (core.dnScaleCurrent el.type)) from rfl]
    rw [interp_scale_eq_specScale]
  · intro sc
    refine ⟨fun h => by rw [specScale, if_pos h], fun h => ?_, ?_, ?_, ?_⟩
    · unfold specScale
      rcases lt_trichotomy lam_nm 610 with h3 | h3 | h3
      · linarith
      · subst h3; norm_num
      · rw [if_neg (by linarith), if_neg (by linarith), if_neg (not_le.mpr h3)]
    · unfold specScale; norm_num
    · unfold specScale; norm_num
    · unfold specScale; norm_num

theorem foldlM_weighted_sum (f : ℝ × ℝ → String → Except String (ℝ × ℝ))
    (w t : String → ℝ) :
    ∀ (keys : List String) (acc : ℝ × ℝ),
      (∀ (acc' : ℝ × ℝ) (key : String), key ∈ keys →
        f acc' key = Except.ok (acc'.1 + w key * t key, acc'.2 + w key)) →
      keys.foldlM f acc =
        Except.ok (acc.1 + (keys.map fun key => w key * t key).sum,
                   acc.2 + (keys.map w).sum) := by
  intro keys
  induction keys with
  | nil => intro acc _; simp only [List.foldlM_nil, List.map_nil, List.sum_nil,
      add_zero]; rfl
  | cons key keys ih =>
    intro acc h
    rw [List.foldlM_cons, h acc key (List.mem_cons_self key keys)]
    rw [show ((Except.ok (acc.1 + w key * t key, acc.2 + w key) :
        Except String (ℝ × ℝ)) >>= fun s => keys.foldlM f s) =
      keys.foldlM f (acc.1 + w key * t key, acc.2 + w key) from rfl]
    rw [ih _ fun acc' k hk => h acc' k (List.mem_cons_of_mem key hk)]
    refine congrArg Except.ok (Prod.ext ?_ ?_) <;> simp [List.sum_cons] <;> ring

theorem normSq_o1_parallel_x :
    Complex.normSq (dotRC (o_axis_Otype (k_hat 0 0) ⟨1, 0, 0⟩)
      ((o_axis_Otype (k_hat 0 0) ⟨1, 0, 0⟩).toC)) = 1 := by
  rw [k_hat_zero, o_axis_z_x, normSq_dotRC_toC]
  norm_num [Vec3.dot]

/-- C1 (amended): the white leakage is the weighted average
`Σ w_k·Tleak_mono(λ_k) / Σ w_k` of the per-wavelength leakages whenever the
total weight is at least the code's floor `1e-30` (not for every positive
total weight); with weights `{B:1, G:2, R:1}` and per-wavelength leakages
`{0.01, 0.02, 0.03}` it equals `0.02` exactly. -/
theorem Tleak_stack_W_weighted_average (core : Core) (theta_deg phi_deg : ℝ)
    (stack : List Element) (c1 c2 : Vec3) (disp_mode : String)
    (wl_keys : List String) (nm w t : String → ℝ)
    (hok : ∀ key ∈ wl_keys,
      Tleak_stack_mono core theta_deg phi_deg stack c1 c2 (nm key) disp_mode =
        Except.ok (t key))
    (hw : 1e-30 ≤ (wl_keys.map w).sum) :
    Tleak_stack_W core theta_deg phi_deg stack c1 c2 disp_mode wl_keys nm w =
      Except.ok ((wl_keys.map fun key => w key * t key).sum /
        (wl_keys.map w).sum) ∧
    ((wl_keys = WL_KEYS ∧ w = WL_WEIGHTS ∧
        t "B" = 0.01 ∧ t "G" = 0.02 ∧ t "R" = 0.03) →
      Tleak_stack_W core theta_deg phi_deg stack c1 c2 disp_mode wl_keys nm w =
        Except.ok 0.02) := by
  have hbody : ∀ (acc' : ℝ × ℝ) (key : String), key ∈ wl_keys →
      (fun (acc : ℝ × ℝ) key => do
        let lam_nm := nm key
        let w' := w key
        let T ← Tleak_stack_mono core theta_deg phi_deg stack c1 c2 lam_nm disp_mode
        Except.ok (acc.1 + w' * T, acc.2 + w')) acc' key =
      Except.ok (acc'.1 + w key * t key, acc'.2 + w key) := by
    intro acc' key hk
    show ((Tleak_stack_mono core theta_deg phi_deg stack c1 c2 (nm key) disp_mode) >>=
      fun T => Except.ok (acc'.1 + w key * T, acc'.2 + w key)) = _
    rw [hok key hk]
    rfl
  have main : Tleak_stack_W core theta_deg phi_deg stack c1 c2 disp_mode wl_keys nm w =
      Except.ok ((wl_keys.map fun key => w key * t key).sum / (wl_keys.map w).sum) := by
    unfold Tleak_stack_W
    rw [foldlM_weighted_sum _ w t wl_keys ((0 : ℝ), (0 : ℝ)) hbody]
    show Except.ok ((0 + (wl_keys.map fun key => w key * t key).sum) /
      max (0 + (wl_keys.map w).sum) 1e-30) = _
    rw [zero_add, zero_add, max_eq_left hw]
  refine ⟨main, ?_⟩
  rintro ⟨rfl, rfl, hB, hG, hR⟩
  rw [main]
  have hsum : ((WL_KEYS.map fun key => WL_WEIGHTS key * t key).sum : ℝ) =
      t "B" + 2 * t "G" + t "R" := by
    simp [WL_KEYS, WL_WEIGHTS]
    ring
  have hwsum : ((WL_KEYS.map WL_WEIGHTS).sum : ℝ) = 4 := by
    simp [WL_KEYS, WL_WEIGHTS]
    norm_num
  rw [hsum, hwsum, hB, hG, hR]
  norm_num

/-- Witness for C1: empty stack at normal incidence with parallel polarizers,
the default keys and weights, and per-wavelength leakage constantly 1. -/
theorem Tleak_stack_W_weighted_average_witness :
    (∀ key ∈ WL_KEYS,
      Tleak_stack_mono defaultCore 0 0 [] ⟨1, 0, 0⟩ ⟨1, 0, 0⟩ (WL_NM key) "flat" =
        Except.ok ((fun _ => (1 : ℝ)) key)) ∧
    (1e-30 : ℝ) ≤ (WL_KEYS.map WL_WEIGHTS).sum ∧
    (Tleak_stack_W defaultCore 0 0 [] ⟨1, 0, 0⟩ ⟨1, 0, 0⟩ "flat" WL_KEYS WL_NM
        WL_WEIGHTS =
      Except.ok ((WL_KEYS.map fun key => WL_WEIGHTS key * (fun _ => (1 : ℝ)) key).sum /
        (WL_KEYS.map WL_WEIGHTS).sum) ∧
    ((WL_KEYS = WL_KEYS ∧ WL_WEIGHTS = WL_WEIGHTS ∧
        (fun _ => (1 : ℝ)) "B" = 0.01 ∧ (fun _ => (1 : ℝ)) "G" = 0.02 ∧
        (fun _ => (1 : ℝ)) "R" = 0.03) →
      Tleak_stack_W defaultCore 0 0 [] ⟨1, 0, 0⟩ ⟨1, 0, 0⟩ "flat" WL_KEYS WL_NM
          WL_WEIGHTS = Except.ok 0.02)) := by
  have h1 : ∀ key ∈ WL_KEYS,
      Tleak_stack_mono defaultCore 0 0 [] ⟨1, 0, 0⟩ ⟨1, 0, 0⟩ (WL_NM key) "flat" =
        Except.ok ((fun _ => (1 : ℝ)) key) :=
    fun key _ => mono_nil_parallel_x (WL_NM key) "flat"
  have h2 : (1e-30 : ℝ) ≤ (WL_KEYS.map WL_WEIGHTS).sum := by
    simp [WL_KEYS, WL_WEIGHTS]
    norm_num
  exact ⟨h1, h2, Tleak_stack_W_weighted_average defaultCore 0 0 [] ⟨1, 0, 0⟩
    ⟨1, 0, 0⟩ "flat" WL_KEYS WL_NM WL_WEIGHTS (fun _ => (1 : ℝ)) h1 h2⟩

/-- Counterexample for C1 as stated: with the positive total weight `1e-31`
(below the code's floor) and per-wavelength leakage 1, the code returns
`1e-31/1e-30 = 1/10`, not the weighted average `1`. -/
theorem Tleak_stack_W_floor_cex :
    (0 : ℝ) < 1e-31 ∧
    Tleak_stack_mono defaultCore 0 0 [] ⟨1, 0, 0⟩ ⟨1, 0, 0⟩ (WL_NM "B") "flat" =
      Except.ok 1 ∧
    Tleak_stack_W defaultCore 0 0 [] ⟨1, 0, 0⟩ ⟨1, 0, 0⟩ "flat" ["B"] WL_NM
        (fun _ => 1e-31) = Except.ok (1 / 10) ∧
    ((["B"].map fun key => (fun _ => (1e-31 : ℝ)) key * 1).sum /
        (["B"].map fun _ => (1e-31 : ℝ)).sum = 1) ∧
    (1 / 10 : ℝ) ≠ 1 := by
  refine ⟨by norm_num, mono_nil_parallel_x _ _, ?_, by norm_num, by norm_num⟩
  show Except.ok ((0 + 1e-31 * Complex.normSq (dotRC (o_axis_Otype (k_hat 0 0) ⟨1, 0, 0⟩)
      ((o_axis_Otype (k_hat 0 0) ⟨1, 0, 0⟩).toC))) / max (0 + 1e-31) 1e-30) =
    Except.ok (1 / 10)
  rw [normSq_o1_parallel_x]
  have hmax : max ((0 : ℝ) + 1e-31) 1e-30 = 1e-30 := by
    rw [zero_add]; exact max_eq_right (by norm_num)
  rw [hmax]
  norm_num

theorem Vec3.dot_smul_right (t : ℝ) (a b : Vec3) :
    Vec3.dot a (t • b) = t * Vec3.dot a b := by
  simp only [Vec3.dot, Vec3.smul_x, Vec3.smul_y, Vec3.smul_z]; ring

theorem o_axis_of_dot_zero {k c : Vec3} (h : Vec3.dot c k = 0) :
    o_axis_Otype k c = (1 / c.norm) • c := by
  unfold o_axis_Otype
  rw [h, Vec3.zero_smul, Vec3.sub_zero]

/-- C5: propagating through an empty stack yields leakage `|⟨o2, o1⟩|²` for
the two polarizers' transverse pass axes at `k`, in both evaluators; with
parallel polarizers (`c1 = c2`, transverse projection nonzero) the leakage is
1, and with crossed transverse polarizers it is 0. -/
theorem empty_stack_leakage (core : Core) (theta_deg phi_deg lam_nm : ℝ)
    (mode wl_key : String) (c1 c2 : Vec3) :
    Tleak_stack_mono core theta_deg phi_deg [] c1 c2 lam_nm mode =
      Except.ok ((Vec3.dot (o_axis_Otype (k_hat theta_deg phi_deg) c2)
        (o_axis_Otype (k_hat theta_deg phi_deg) c1)) ^ 2) ∧
    Tleak_single_lambda core theta_deg phi_deg [] c1 c2 wl_key =
      Except.ok ((Vec3.dot (o_axis_Otype (k_hat theta_deg phi_deg) c2)
        (o_axis_Otype (k_hat theta_deg phi_deg) c1)) ^ 2) ∧
    (c1 = c2 →
      c1 - (Vec3.dot c1 (k_hat theta_deg phi_deg)) • k_hat theta_deg phi_deg ≠ 0 →
      Tleak_stack_mono core theta_deg phi_deg [] c1 c2 lam_nm mode =
        Except.ok 1 ∧
      Tleak_single_lambda core theta_deg phi_deg [] c1 c2 wl_key =
        Except.ok 1) ∧
    (Vec3.dot c1 c2 = 0 → Vec3.dot c1 (k_hat theta_deg phi_deg) = 0 →
      Vec3.dot c2 (k_hat theta_deg phi_deg) = 0 →
      Tleak_stack_mono core theta_deg phi_deg [] c1 c2 lam_nm mode =
        Except.ok 0 ∧
      Tleak_single_lambda core theta_deg phi_deg [] c1 c2 wl_key =
        Except.ok 0) := by
  have ha : Tleak_stack_mono core theta_deg phi_deg [] c1 c2 lam_nm mode =
      Except.ok ((Vec3.dot (o_axis_Otype (k_hat theta_deg phi_deg) c2)
        (o_axis_Otype (k_hat theta_deg phi_deg) c1)) ^ 2) := by
    rw [Tleak_stack_mono_nil, normSq_dotRC_toC]
  have hb : Tleak_single_lambda core theta_deg phi_deg [] c1 c2 wl_key =
      Except.ok ((Vec3.dot (o_axis_Otype (k_hat theta_deg phi_deg) c2)
        (o_axis_Otype (k_hat theta_deg phi_deg) c1)) ^ 2) := by
    rw [Tleak_single_lambda_nil, normSq_dotRC_toC]
  refine ⟨ha, hb, ?_, ?_⟩
  · rintro rfl hproj
    have hdot : Vec3.dot (o_axis_Otype (k_hat theta_deg phi_deg) c1)
        (o_axis_Otype (k_hat theta_deg phi_deg) c1) = 1 := by
      rw [← Vec3.norm2_eq_dot]
      exact o_axis_norm2 (k_hat_norm2 theta_deg phi_deg) hproj
    rw [ha, hb, hdot]
    norm_num
  · intro hcc hc1k hc2k
    have hdot : Vec3.dot (o_axis_Otype (k_hat theta_deg phi_deg) c2)
        (o_axis_Otype (k_hat theta_deg phi_deg) c1) = 0 := by
      rw [o_axis_of_dot_zero hc1k, o_axis_of_dot_zero hc2k,
        Vec3.dot_smul_left, Vec3.dot_smul_right, Vec3.dot_comm c2 c1, hcc]
      ring
    rw [ha, hb, hdot]
    norm_num

/-- C3: every element application is immediately followed by the
re-projection `E ← E − (E·k)k`, so for unit `k` the transversality invariant
`E·k = 0` holds exactly after every propagation step, in both leakage
evaluators and in the Stokes trace, and hence at the end of every nonempty
propagation. -/
theorem propagation_transversality (core : Core)
    (theta_deg phi_deg lam lam_nm : ℝ) (disp_mode wl_key : String)
    (u v : Vec3) (k : Vec3) (hk : Vec3.norm k = 1) :
    (∀ (E E' : CVec3) (el : Element),
      Tleak_single_lambda_step core theta_deg phi_deg lam k wl_key E el =
        Except.ok E' → dotRC k E' = 0) ∧
    (∀ (E E' : CVec3) (el : Element),
      Tleak_stack_mono_step core theta_deg phi_deg lam_nm disp_mode lam k E el =
        Except.ok E' → dotRC k E' = 0) ∧
    (∀ (st st' : CVec3 × List StokesPoint) (iel : ℕ × Element),
      trace_step core theta_deg phi_deg lam k u v wl_key st iel =
        Except.ok st' → dotRC k st'.1 = 0) ∧
    (∀ (stack : List Element) (E0 E' : CVec3), stack ≠ [] →
      stack.foldlM (Tleak_single_lambda_step core theta_deg phi_deg lam k wl_key)
        E0 = Except.ok E' → dotRC k E' = 0) ∧
    (∀ (stack : List Element) (E0 E' : CVec3), stack ≠ [] →
      stack.foldlM
        (Tleak_stack_mono_step core theta_deg phi_deg lam_nm disp_mode lam k)
        E0 = Except.ok E' → dotRC k E' = 0) := by
  have hk2 : Vec3.norm2 k = 1 := Vec3.norm_eq_one_iff.mp hk
  refine ⟨?_, ?_, ?_, ?_, ?_⟩
  · exact fun E E' el h =>
      Tleak_single_lambda_step_transverse hk2 core theta_deg phi_deg lam wl_key E E' el h
  · exact fun E E' el h =>
      Tleak_stack_mono_step_transverse hk2 core theta_deg phi_deg lam_nm disp_mode lam E E' el h
  · exact fun st st' iel h =>
      trace_step_transverse hk2 core theta_deg phi_deg lam u v wl_key st st' iel h
  · exact fun stack E0 E' hne h =>
      foldlM_last_inv _ (fun E => dotRC k E = 0)
        (fun s a s' hs =>
          Tleak_single_lambda_step_transverse hk2 core theta_deg phi_deg lam wl_key s s' a hs)
        stack E0 E' hne h
  · exact fun stack E0 E' hne h =>
      foldlM_last_inv _ (fun E => dotRC k E = 0)
        (fun s a s' hs =>
          Tleak_stack_mono_step_transverse hk2 core theta_deg phi_deg lam_nm disp_mode lam s s' a hs)
        stack E0 E' hne h

/-- Witness for C3 at the unit direction `k = ẑ` and default core. -/
theorem propagation_transversality_witness :
    (∀ (E E' : CVec3) (el : Element),
      Tleak_single_lambda_step defaultCore 0 0 546 ⟨0, 0, 1⟩ "G" E el =
        Except.ok E' → dotRC ⟨0, 0, 1⟩ E' = 0) ∧
    (∀ (E E' : CVec3) (el : Element),
      Tleak_stack_mono_step defaultCore 0 0 546 "flat" 546 ⟨0, 0, 1⟩ E el =
        Except.ok E' → dotRC ⟨0, 0, 1⟩ E' = 0) ∧
    (∀ (st st' : CVec3 × List StokesPoint) (iel : ℕ × Element),
      trace_step defaultCore 0 0 546 ⟨0, 0, 1⟩ ⟨1, 0, 0⟩ ⟨0, 1, 0⟩ "G" st iel =
        Except.ok st' → dotRC ⟨0, 0, 1⟩ st'.1 = 0) ∧
    (∀ (stack : List Element) (E0 E' : CVec3), stack ≠ [] →
      stack.foldlM (Tleak_single_lambda_step defaultCore 0 0 546 ⟨0, 0, 1⟩ "G")
        E0 = Except.ok E' → dotRC ⟨0, 0, 1⟩ E' = 0) ∧
    (∀ (stack : List Element) (E0 E' : CVec3), stack ≠ [] →
      stack.foldlM
        (Tleak_stack_mono_step defaultCore 0 0 546 "flat" 546 ⟨0, 0, 1⟩)
        E0 = Except.ok E' → dotRC ⟨0, 0, 1⟩ E' = 0) :=
  propagation_transversality defaultCore 0 0 546 546 "flat" "G"
    ⟨1, 0, 0⟩ ⟨0, 1, 0⟩ ⟨0, 0, 1⟩ norm_z_unit

theorem Tleak_single_lambda_as_bind (core : Core) (theta_deg phi_deg : ℝ)
    (stack : List Element) (c1 c2 : Vec3) (wl_key : String) :
    Tleak_single_lambda core theta_deg phi_deg stack c1 c2 wl_key =
      (stack.foldlM
        (Tleak_single_lambda_step core theta_deg phi_deg (core.wlM wl_key)
          (k_hat theta_deg phi_deg) wl_key)
        ((o_axis_Otype (k_hat theta_deg phi_deg) c1).toC)) >>= fun E =>
      Except.ok (Complex.normSq
        (dotRC (o_axis_Otype (k_hat theta_deg phi_deg) c2) E)) := rfl

theorem Tleak_single_lambda_ok_of_good (core : Core) (theta_deg phi_deg : ℝ)
    (stack : List Element) (c1 c2 : Vec3) (wl_key : String)
    (hgood : ∀ el ∈ stack, goodType el) :
    ∃ T, Tleak_single_lambda core theta_deg phi_deg stack c1 c2 wl_key =
      Except.ok T := by
  obtain ⟨E, hE⟩ := foldlM_ok_of_all _ goodType
    (fun s a ha => Tleak_single_lambda_step_ok core theta_deg phi_deg
      (core.wlM wl_key) (k_hat theta_deg phi_deg) wl_key s a ha)
    stack ((o_axis_Otype (k_hat theta_deg phi_deg) c1).toC) hgood
  exact ⟨Complex.normSq (dotRC (o_axis_Otype (k_hat theta_deg phi_deg) c2) E),
    by rw [Tleak_single_lambda_as_bind, hE]; rfl⟩

theorem Tleak_single_lambda_first_bad (core : Core) (theta_deg phi_deg : ℝ)
    (c1 c2 : Vec3) (wl_key : String) (pre : List Element) (bad : Element)
    (post : List Element) (hpre : ∀ el ∈ pre, goodType el)
    (hbad : ¬ goodType bad) :
    Tleak_single_lambda core theta_deg phi_deg (pre ++ bad :: post) c1 c2 wl_key =
      Except.error ("Unknown element type: " ++ bad.type) := by
  rw [Tleak_single_lambda_as_bind]
  rw [foldlM_error_first _ goodType
    (fun s a ha => Tleak_single_lambda_step_ok core theta_deg phi_deg
      (core.wlM wl_key) (k_hat theta_deg phi_deg) wl_key s a ha)
    (fun el => "Unknown element type: " ++ el.type)
    (fun s a ha => Tleak_single_lambda_step_err core theta_deg phi_deg
      (core.wlM wl_key) (k_hat theta_deg phi_deg) wl_key s a ha)
    pre bad post _ hpre hbad]
  rfl

theorem Tleak_single_lambda_error_iff (core : Core) (theta_deg phi_deg : ℝ)
    (stack : List Element) (c1 c2 : Vec3) (wl_key : String) :
    (∃ msg, Tleak_single_lambda core theta_deg phi_deg stack c1 c2 wl_key =
      Except.error msg) ↔ ∃ el ∈ stack, ¬ goodType el := by
  constructor
  · rintro ⟨msg, hmsg⟩
    by_contra hno
    push_neg at hno
    obtain ⟨T, hT⟩ := Tleak_single_lambda_ok_of_good core theta_deg phi_deg
      stack c1 c2 wl_key hno
    rw [hT] at hmsg
    exact Except.noConfusion hmsg
  · intro hbad
    obtain ⟨pre, bad, post, rfl, hpre, hb⟩ := exists_first_bad goodType stack hbad
    exact ⟨_, Tleak_single_lambda_first_bad core theta_deg phi_deg c1 c2 wl_key
      pre bad post hpre hb⟩

theorem transverse_basis_some_ok (k c1 c2 : Vec3) {basis : String}
    (hb : basis = "lab" ∨ basis = "pol_in" ∨ basis = "pol_out") :
    ∃ uv, transverse_basis k basis (some c1) (some c2) = Except.ok uv := by
  rcases hb with rfl | rfl | rfl
  · exact ⟨_, rfl⟩
  · exact ⟨_, rfl⟩
  · exact ⟨_, rfl⟩

/-- The per-wavelength-key body of the `trace_stokes_per_wavelength` loop,
once the transverse basis `uv` is fixed. -/
def traceBody (core : Core) (theta_deg phi_deg : ℝ) (stack : List Element)
    (c1 : Vec3) (uv : Vec3 × Vec3) (acc : List StokesPoint) (wl : String) :
    Except String (List StokesPoint) :=
  (stack.enum.foldlM
    (trace_step core theta_deg phi_deg (core.wlM wl) (k_hat theta_deg phi_deg)
      uv.1 uv.2 wl)
    (((o_axis_Otype (k_hat theta_deg phi_deg) c1).toC), [])) >>= fun res =>
  Except.ok (acc ++ res.2)

theorem trace_as_bind (core : Core) (theta_deg phi_deg : ℝ)
    (stack : List Element) (c1 c2 : Vec3) (basis : String)
    (wl_keys : List String) (uv : Vec3 × Vec3)
    (huv : transverse_basis (k_hat theta_deg phi_deg) basis (some c1) (some c2) =
      Except.ok uv) :
    trace_stokes_per_wavelength core theta_deg phi_deg stack c1 c2 basis wl_keys =
      (wl_keys.foldlM (traceBody core theta_deg phi_deg stack c1 uv) []) >>=
        fun elPts =>
      Except.ok ((wl_keys.map fun wl =>
        let S := stokes_from_E ((o_axis_Otype (k_hat theta_deg phi_deg) c1).toC)
          (k_hat theta_deg phi_deg) uv.1 uv.2
        (⟨"POL_in", wl, S.1, S.2.1, S.2.2.1, S.2.2.2⟩ : StokesPoint)) ++ elPts) := by
  simp only [trace_stokes_per_wavelength]
  rw [huv]
  rfl

theorem mem_of_mem_enum {l : List Element} {ia : ℕ × Element}
    (h : ia ∈ l.enum) : ia.2 ∈ l := by
  rw [← List.enum_map_snd l]
  exact List.mem_map_of_mem Prod.snd h

theorem traceBody_ok_of_good (core : Core) (theta_deg phi_deg : ℝ)
    (stack : List Element) (c1 : Vec3) (uv : Vec3 × Vec3)
    (hgood : ∀ el ∈ stack, goodType el) (acc : List StokesPoint) (wl : String) :
    ∃ acc', traceBody core theta_deg phi_deg stack c1 uv acc wl =
      Except.ok acc' := by
  obtain ⟨r, hr⟩ := foldlM_ok_of_all _ (fun ia : ℕ × Element => goodType ia.2)
    (fun s a ha => trace_step_ok core theta_deg phi_deg (core.wlM wl)
      (k_hat theta_deg phi_deg) uv.1 uv.2 wl s a ha)
    stack.enum (((o_axis_Otype (k_hat theta_deg phi_deg) c1).toC), [])
    (fun ia hia => hgood ia.2 (mem_of_mem_enum hia))
  exact ⟨acc ++ r.2, by unfold traceBody; rw [hr]; rfl⟩

theorem trace_ok_of_good (core : Core) (theta_deg phi_deg : ℝ)
    (stack : List Element) (c1 c2 : Vec3) {basis : String}
    (hb : basis = "lab" ∨ basis = "pol_in" ∨ basis = "pol_out")
    (wl_keys : List String) (hgood : ∀ el ∈ stack, goodType el) :
    ∃ pts, trace_stokes_per_wavelength core theta_deg phi_deg stack c1 c2 basis
      wl_keys = Except.ok pts := by
  obtain ⟨uv, huv⟩ := transverse_basis_some_ok (k_hat theta_deg phi_deg) c1 c2 hb
  obtain ⟨elPts, hel⟩ := foldlM_ok_of_all
    (traceBody core theta_deg phi_deg stack c1 uv) (fun _ : String => True)
    (fun s a _ => traceBody_ok_of_good core theta_deg phi_deg stack c1 uv hgood s a)
    wl_keys [] (fun _ _ => trivial)
  refine ⟨(wl_keys.map fun wl =>
    let S := stokes_from_E ((o_axis_Otype (k_hat theta_deg phi_deg) c1).toC)
      (k_hat theta_deg phi_deg) uv.1 uv.2
    (⟨"POL_in", wl, S.1, S.2.1, S.2.2.1, S.2.2.2⟩ : StokesPoint)) ++ elPts, ?_⟩
  rw [trace_as_bind core theta_deg phi_deg stack c1 c2 basis wl_keys uv huv, hel]
  rfl

theorem trace_first_bad (core : Core) (theta_deg phi_deg : ℝ) (c1 c2 : Vec3)
    {basis : String} (hb : basis = "lab" ∨ basis = "pol_in" ∨ basis = "pol_out")
    {wl_keys : List String} (hkeys : wl_keys ≠ []) (pre : List Element)
    (bad : Element) (post : List Element) (hpre : ∀ el ∈ pre, goodType el)
    (hbad : ¬ goodType bad) :
    trace_stokes_per_wavelength core theta_deg phi_deg (pre ++ bad :: post)
      c1 c2 basis wl_keys =
      Except.error ("Unknown element type: " ++ bad.type) := by
  obtain ⟨uv, huv⟩ := transverse_basis_some_ok (k_hat theta_deg phi_deg) c1 c2 hb
  obtain ⟨key0, rest, rfl⟩ := List.exists_cons_of_ne_nil hkeys
  rw [trace_as_bind core theta_deg phi_deg (pre ++ bad :: post) c1 c2 basis
    (key0 :: rest) uv huv]
  have hdecomp : (pre ++ bad :: post).enum =
      pre.enum ++ ((pre.length, bad) :: post.enumFrom (pre.length + 1)) := by
    rw [List.enum_append]
    rfl
  have hinner : (pre ++ bad :: post).enum.foldlM
      (trace_step core theta_deg phi_deg (core.wlM key0) (k_hat theta_deg phi_deg)
        uv.1 uv.2 key0)
      (((o_axis_Otype (k_hat theta_deg phi_deg) c1).toC), []) =
      Except.error ("Unknown element type: " ++ bad.type) := by
    rw [hdecomp]
    exact foldlM_error_first _ (fun ia : ℕ × Element => goodType ia.2)
      (fun s a ha => trace_step_ok core theta_deg phi_deg (core.wlM key0)
        (k_hat theta_deg phi_deg) uv.1 uv.2 key0 s a ha)
      (fun ia => "Unknown element type: " ++ ia.2.type)
      (fun s a ha => trace_step_err core theta_deg phi_deg (core.wlM key0)
        (k_hat theta_deg phi_deg) uv.1 uv.2 key0 s a ha)
      pre.enum (pre.length, bad) (post.enumFrom (pre.length + 1)) _
      (fun ia hia => hpre ia.2 (mem_of_mem_enum hia)) hbad
  have hbody0 : traceBody core theta_deg phi_deg (pre ++ bad :: post) c1 uv []
      key0 = Except.error ("Unknown element type: " ++ bad.type) := by
    unfold traceBody
    rw [hinner]
    rfl
  rw [List.foldlM_cons, hbody0]
  rfl

theorem trace_error_iff (core : Core) (theta_deg phi_deg : ℝ)
    (stack : List Element) (c1 c2 : Vec3) {basis : String}
    (hb : basis = "lab" ∨ basis = "pol_in" ∨ basis = "pol_out")
    {wl_keys : List String} (hkeys : wl_keys ≠ []) :
    (∃ msg, trace_stokes_per_wavelength core theta_deg phi_deg stack c1 c2 basis
      wl_keys = Except.error msg) ↔ ∃ el ∈ stack, ¬ goodType el := by
  constructor
  · rintro ⟨msg, hmsg⟩
    by_contra hno
    push_neg at hno
    obtain ⟨pts, hpts⟩ := trace_ok_of_good core theta_deg phi_deg stack c1 c2 hb
      wl_keys hno
    rw [hpts] at hmsg
    exact Except.noConfusion hmsg
  · intro hbad
    obtain ⟨pre, bad, post, rfl, hpre, hbadb⟩ := exists_first_bad goodType stack hbad
    exact ⟨_, trace_first_bad core theta_deg phi_deg c1 c2 hb hkeys pre bad post
      hpre hbadb⟩

/-- C8: the per-wavelength leakage evaluation and the Stokes trace raise a
`ValueError` exactly when the stack contains an element whose type token is
outside `{"A", "C", "LC"}`; the error carries the first offending element's
token, and a stack of recognized tokens never fails on element type. -/
theorem unknown_type_error (core : Core) (theta_deg phi_deg : ℝ)
    (stack : List Element) (c1 c2 : Vec3) (wl_key basis : String)
    (wl_keys : List String)
    (hb : basis = "lab" ∨ basis = "pol_in" ∨ basis = "pol_out")
    (hkeys : wl_keys ≠ []) :
    ((∃ msg, Tleak_single_lambda core theta_deg phi_deg stack c1 c2 wl_key =
        Except.error msg) ↔ ∃ el ∈ stack, ¬ goodType el) ∧
    (∀ pre bad post, stack = pre ++ bad :: post →
      (∀ el ∈ pre, goodType el) → ¬ goodType bad →
      Tleak_single_lambda core theta_deg phi_deg stack c1 c2 wl_key =
        Except.error ("Unknown element type: " ++ bad.type)) ∧
    ((∃ msg, trace_stokes_per_wavelength core theta_deg phi_deg stack c1 c2
        basis wl_keys = Except.error msg) ↔ ∃ el ∈ stack, ¬ goodType el) ∧
    (∀ pre bad post, stack = pre ++ bad :: post →
      (∀ el ∈ pre, goodType el) → ¬ goodType bad →
      trace_stokes_per_wavelength core theta_deg phi_deg stack c1 c2 basis
        wl_keys = Except.error ("Unknown element type: " ++ bad.type)) := by
  refine ⟨Tleak_single_lambda_error_iff core theta_deg phi_deg stack c1 c2 wl_key,
    ?_, trace_error_iff core theta_deg phi_deg stack c1 c2 hb hkeys, ?_⟩
  · rintro pre bad post rfl hpre hbad
    exact Tleak_single_lambda_first_bad core theta_deg phi_deg c1 c2 wl_key
      pre bad post hpre hbad
  · rintro pre bad post rfl hpre hbad
    exact trace_first_bad core theta_deg phi_deg c1 c2 hb hkeys pre bad post
      hpre hbad

/-- Witness for C8 on a one-element stack with the unrecognized token "X". -/
theorem unknown_type_error_witness :
    ((∃ msg, Tleak_single_lambda defaultCore 0 0 [⟨"X", ⟨1, 0, 0⟩, 1, 1, 1⟩]
        ⟨1, 0, 0⟩ ⟨1, 0, 0⟩ "G" = Except.error msg) ↔
      ∃ el ∈ [(⟨"X", ⟨1, 0, 0⟩, 1, 1, 1⟩ : Element)], ¬ goodType el) ∧
    (∀ pre bad post,
      [(⟨"X", ⟨1, 0, 0⟩, 1, 1, 1⟩ : Element)] = pre ++ bad :: post →
      (∀ el ∈ pre, goodType el) → ¬ goodType bad →
      Tleak_single_lambda defaultCore 0 0 [⟨"X", ⟨1, 0, 0⟩, 1, 1, 1⟩]
        ⟨1, 0, 0⟩ ⟨1, 0, 0⟩ "G" =
        Except.error ("Unknown element type: " ++ bad.type)) ∧
    ((∃ msg, trace_stokes_per_wavelength defaultCore 0 0
        [⟨"X", ⟨1, 0, 0⟩, 1, 1, 1⟩] ⟨1, 0, 0⟩ ⟨1, 0, 0⟩ "lab" WL_KEYS =
        Except.error msg) ↔
      ∃ el ∈ [(⟨"X", ⟨1, 0, 0⟩, 1, 1, 1⟩ : Element)], ¬ goodType el) ∧
    (∀ pre bad post,
      [(⟨"X", ⟨1, 0, 0⟩, 1, 1, 1⟩ : Element)] = pre ++ bad :: post →
      (∀ el ∈ pre, goodType el) → ¬ goodType bad →
      trace_stokes_per_wavelength defaultCore 0 0 [⟨"X", ⟨1, 0, 0⟩, 1, 1, 1⟩]
        ⟨1, 0, 0⟩ ⟨1, 0, 0⟩ "lab" WL_KEYS =
        Except.error ("Unknown element type: " ++ bad.type)) :=
  unknown_type_error defaultCore 0 0 [⟨"X", ⟨1, 0, 0⟩, 1, 1, 1⟩] ⟨1, 0, 0⟩
    ⟨1, 0, 0⟩ "G" "lab" WL_KEYS (Or.inl rfl) (by simp [WL_KEYS])

theorem np_arange_eq (start step : ℝ) (n : ℕ) (stop : ℝ)
    (hstop : stop = start + n * step + 1e-12) (hstep : 1e-12 ≤ step) :
    np_arange start stop step =
      (List.range (n + 1)).map fun i : ℕ => start + (i : ℝ) * step := by
  have hstep0 : (0 : ℝ) < step := lt_of_lt_of_le (by norm_num) hstep
  have hdiv : (stop - start) / step = (n : ℝ) + 1e-12 / step := by
    rw [hstop]
    field_simp
    ring
  have hceil : Int.ceil ((stop - start) / step) = (n : ℤ) + 1 := by
    rw [hdiv, Int.ceil_eq_iff]
    constructor
    · push_cast
      have hp : (0 : ℝ) < 1e-12 / step := div_pos (by norm_num) hstep0
      linarith
    · push_cast
      have hp : 1e-12 / step ≤ 1 := (div_le_one hstep0).mpr hstep
      linarith
  unfold np_arange
  rw [hceil]
  norm_num

/-- C9 (amended): the contrast grids sample theta at `0, dθ, …, θmax` and phi
at `0, dφ, …, 360` inclusive (when the steps divide the ranges and are at
least `1e-12`), and each grid cell is the pure contrast function of its own
`(theta, phi)` sample. -/
theorem contrast_grid_samples (core : Core) (stack : List Element)
    (c1 c2 : Vec3) (disp_mode : String) (lam_nm theta_max dtheta dphi : ℝ)
    (n m : ℕ) (hth : theta_max = n * dtheta) (hph : (360 : ℝ) = m * dphi)
    (hdth : 1e-12 ≤ dtheta) (hdph : 1e-12 ≤ dphi) :
    (compute_CR_grid_W core stack c1 c2 disp_mode theta_max dtheta dphi).1 =
      (List.range (n + 1)).map (fun i : ℕ => (i : ℝ) * dtheta) ∧
    (compute_CR_grid_W core stack c1 c2 disp_mode theta_max dtheta dphi).2.1 =
      (List.range (m + 1)).map (fun i : ℕ => (i : ℝ) * dphi) ∧
    theta_max ∈
      (compute_CR_grid_W core stack c1 c2 disp_mode theta_max dtheta dphi).1 ∧
    (0 : ℝ) ∈
      (compute_CR_grid_W core stack c1 c2 disp_mode theta_max dtheta dphi).2.1 ∧
    (360 : ℝ) ∈
      (compute_CR_grid_W core stack c1 c2 disp_mode theta_max dtheta dphi).2.1 ∧
    (∀ th ∈ (compute_CR_grid_W core stack c1 c2 disp_mode theta_max dtheta dphi).1,
      0 ≤ th ∧ th ≤ theta_max) ∧
    (compute_CR_grid_W core stack c1 c2 disp_mode theta_max dtheta dphi).2.2 =
      ((compute_CR_grid_W core stack c1 c2 disp_mode theta_max dtheta dphi).1).map
        (fun th =>
          ((compute_CR_grid_W core stack c1 c2 disp_mode theta_max dtheta dphi).2.1).map
            fun ph => CR_W core th ph stack c1 c2 disp_mode) ∧
    (compute_CR_grid_mono core stack c1 c2 lam_nm disp_mode theta_max dtheta dphi).2.2 =
      ((compute_CR_grid_mono core stack c1 c2 lam_nm disp_mode theta_max dtheta dphi).1).map
        (fun th =>
          ((compute_CR_grid_mono core stack c1 c2 lam_nm disp_mode theta_max dtheta dphi).2.1).map
            fun ph => CR_mono core th ph stack c1 c2 lam_nm disp_mode) := by
  have hd0 : (0 : ℝ) ≤ dtheta := le_trans (by norm_num) hdth
  have hthetas : np_arange 0 (theta_max + 1e-12) dtheta =
      (List.range (n + 1)).map fun i : ℕ => (i : ℝ) * dtheta := by
    rw [np_arange_eq 0 dtheta n (theta_max + 1e-12) (by rw [hth]; ring) hdth]
    simp only [zero_add]
  have hphis : np_arange 0 ((360 : ℝ) + 1e-12) dphi =
      (List.range (m + 1)).map fun i : ℕ => (i : ℝ) * dphi := by
    rw [np_arange_eq 0 dphi m ((360 : ℝ) + 1e-12) (by rw [hph]; ring) hdph]
    simp only [zero_add]
  refine ⟨hthetas, hphis, ?_, ?_, ?_, ?_, rfl, rfl⟩
  · show theta_max ∈ np_arange 0 (theta_max + 1e-12) dtheta
    rw [hthetas]
    simp only [List.mem_map, List.mem_range]
    exact ⟨n, Nat.lt_succ_self n, by rw [← hth]⟩
  · show (0 : ℝ) ∈ np_arange 0 ((360 : ℝ) + 1e-12) dphi
    rw [hphis]
    simp only [List.mem_map, List.mem_range]
    exact ⟨0, Nat.succ_pos m, by norm_num⟩
  · show (360 : ℝ) ∈ np_arange 0 ((360 : ℝ) + 1e-12) dphi
    rw [hphis]
    simp only [List.mem_map, List.mem_range]
    exact ⟨m, Nat.lt_succ_self m, by rw [← hph]⟩
  · intro th hth'
    replace hth' : th ∈ np_arange 0 (theta_max + 1e-12) dtheta := hth'
    rw [hthetas] at hth'
    simp only [List.mem_map, List.mem_range] at hth'
    obtain ⟨i, hi, rfl⟩ := hth'
    replace hi : i ≤ n := Nat.lt_succ_iff.mp hi
    constructor
    · exact mul_nonneg (Nat.cast_nonneg i) hd0
    · rw [hth]
      exact mul_le_mul_of_nonneg_right (Nat.cast_le.mpr hi) hd0

/-- Witness for C9 at the default grid `θmax = 60`, `dθ = dφ = 5`. -/
theorem contrast_grid_samples_witness :
    (compute_CR_grid_W defaultCore [] ⟨1, 0, 0⟩ ⟨1, 0, 0⟩ "flat" 60 5 5).1 =
      (List.range 13).map (fun i : ℕ => (i : ℝ) * 5) ∧
    (compute_CR_grid_W defaultCore [] ⟨1, 0, 0⟩ ⟨1, 0, 0⟩ "flat" 60 5 5).2.1 =
      (List.range 73).map (fun i : ℕ => (i : ℝ) * 5) ∧
    (60 : ℝ) ∈ (compute_CR_grid_W defaultCore [] ⟨1, 0, 0⟩ ⟨1, 0, 0⟩ "flat" 60 5 5).1 ∧
    (0 : ℝ) ∈ (compute_CR_grid_W defaultCore [] ⟨1, 0, 0⟩ ⟨1, 0, 0⟩ "flat" 60 5 5).2.1 ∧
    (360 : ℝ) ∈ (compute_CR_grid_W defaultCore [] ⟨1, 0, 0⟩ ⟨1, 0, 0⟩ "flat" 60 5 5).2.1 ∧
    (∀ th ∈ (compute_CR_grid_W defaultCore [] ⟨1, 0, 0⟩ ⟨1, 0, 0⟩ "flat" 60 5 5).1,
      0 ≤ th ∧ th ≤ (60 : ℝ)) ∧
    (compute_CR_grid_W defaultCore [] ⟨1, 0, 0⟩ ⟨1, 0, 0⟩ "flat" 60 5 5).2.2 =
      ((compute_CR_grid_W defaultCore [] ⟨1, 0, 0⟩ ⟨1, 0, 0⟩ "flat" 60 5 5).1).map
        (fun th =>
          ((compute_CR_grid_W defaultCore [] ⟨1, 0, 0⟩ ⟨1, 0, 0⟩ "flat" 60 5 5).2.1).map
            fun ph => CR_W defaultCore th ph [] ⟨1, 0, 0⟩ ⟨1, 0, 0⟩ "flat") ∧
    (compute_CR_grid_mono defaultCore [] ⟨1, 0, 0⟩ ⟨1, 0, 0⟩ 546 "flat" 60 5 5).2.2 =
      ((compute_CR_grid_mono defaultCore [] ⟨1, 0, 0⟩ ⟨1, 0, 0⟩ 546 "flat" 60 5 5).1).map
        (fun th =>
          ((compute_CR_grid_mono defaultCore [] ⟨1, 0, 0⟩ ⟨1, 0, 0⟩ 546 "flat" 60 5 5).2.1).map
            fun ph => CR_mono defaultCore th ph [] ⟨1, 0, 0⟩ ⟨1, 0, 0⟩ 546 "flat") :=
  contrast_grid_samples defaultCore [] ⟨1, 0, 0⟩ ⟨1, 0, 0⟩ "flat" 546 60 5 5 12 72
    (by norm_num) (by norm_num) (by norm_num) (by norm_num)

/-- Counterexample for C9 as stated: the azimuth grid contains the sample
`360`, which does not lie in `[0, 360)`. -/
theorem contrast_grid_phi_cex :
    (360 : ℝ) ∈ (compute_CR_grid_W defaultCore [] ⟨1, 0, 0⟩ ⟨1, 0, 0⟩ "flat"
      60 5 5).2.1 ∧ ¬ ((360 : ℝ) < 360) := by
  constructor
  · show (360 : ℝ) ∈ np_arange 0 ((360 : ℝ) + 1e-12) 5
    rw [np_arange_eq 0 5 72 ((360 : ℝ) + 1e-12) (by norm_num) (by norm_num)]
    simp only [List.mem_map, List.mem_range]
    exact ⟨72, by norm_num, by norm_num⟩
  · norm_num

theorem transverse_basis_lab (k : Vec3) (c1 c2 : Option Vec3) :
    transverse_basis k "lab" c1 c2 =
      (let k' := pyNormalize k
       let ref : Vec3 := ⟨1, 0, 0⟩
       let ref := if |Vec3.dot ref k'| > 0.95 then (⟨0, 1, 0⟩ : Vec3) else ref
       let u := pyNormalize (ref - (Vec3.dot ref k') • k')
       Except.ok (u, pyNormalize (Vec3.cross k' u))) := rfl

theorem transverse_basis_pol_in (k c1 : Vec3) (c2 : Option Vec3) :
    transverse_basis k "pol_in" (some c1) c2 =
      (let k' := pyNormalize k
       let u := pyNormalize (o_axis_Otype k' c1)
       Except.ok (u, pyNormalize (Vec3.cross k' u))) := rfl

theorem transverse_basis_pol_out (k c2 : Vec3) (c1 : Option Vec3) :
    transverse_basis k "pol_out" c1 (some c2) =
      (let k' := pyNormalize k
       let u := pyNormalize (o_axis_Otype k' c2)
       Except.ok (u, pyNormalize (Vec3.cross k' u))) := rfl

theorem norm_ge_eps {v : Vec3} (h : (1e-15 : ℝ) ^ 2 ≤ Vec3.norm2 v) :
    (1e-15 : ℝ) ≤ v.norm := by
  unfold Vec3.norm
  rw [show (1e-15 : ℝ) = Real.sqrt ((1e-15) ^ 2) from
    (Real.sqrt_sq (by norm_num)).symm]
  exact Real.sqrt_le_sqrt h

/-- Orthonormal right-handed conclusions from a unit transverse `u1`. -/
theorem basis_pack {k u1 : Vec3} (hk2 : Vec3.norm2 k = 1)
    (hu : Vec3.norm2 u1 = 1) (huk : Vec3.dot u1 k = 0) :
    Vec3.norm u1 = 1 ∧
    Vec3.norm (Vec3.cross k u1) = 1 ∧
    pyNormalize (Vec3.cross k u1) = Vec3.cross k u1 ∧
    Vec3.dot u1 (Vec3.cross k u1) = 0 ∧
    Vec3.dot (Vec3.cross k u1) k = 0 ∧
    Vec3.dot k (Vec3.cross u1 (Vec3.cross k u1)) = 1 := by
  have hcross2 : Vec3.norm2 (Vec3.cross k u1) = 1 := by
    rw [Vec3.norm2_cross, hk2, hu, Vec3.dot_comm k u1, huk]
    ring
  have hcrossn : Vec3.norm (Vec3.cross k u1) = 1 := Vec3.norm_eq_one_iff.mpr hcross2
  refine ⟨Vec3.norm_eq_one_iff.mpr hu, hcrossn, pyNormalize_of_norm_one hcrossn,
    ?_, Vec3.dot_cross_left k u1, ?_⟩
  · rw [Vec3.dot_comm]
    exact Vec3.dot_cross_right k u1
  · rw [Vec3.dot_cross_triple, hk2, hu, Vec3.dot_comm k u1, huk]
    ring

theorem lab_u_facts (k ref : Vec3) (hk2 : Vec3.norm2 k = 1)
    (hbig : (1e-15 : ℝ) ^ 2 ≤ Vec3.norm2 ref - (Vec3.dot ref k) ^ 2) :
    Vec3.norm2 (pyNormalize (ref - (Vec3.dot ref k) • k)) = 1 ∧
    Vec3.dot (pyNormalize (ref - (Vec3.dot ref k) • k)) k = 0 := by
  have hn2 : Vec3.norm2 (ref - (Vec3.dot ref k) • k) =
      Vec3.norm2 ref - (Vec3.dot ref k) ^ 2 := norm2_proj ref hk2
  have heps : (1e-15 : ℝ) ≤ (ref - (Vec3.dot ref k) • k).norm :=
    norm_ge_eps (by rw [hn2]; exact hbig)
  have hnz : Vec3.norm2 (ref - (Vec3.dot ref k) • k) ≠ 0 := by
    rw [hn2]; nlinarith
  rw [pyNormalize_of_le_norm heps]
  constructor
  · exact norm2_normalize hnz
  · rw [Vec3.dot_smul_left, dot_proj_eq_zero ref hk2, mul_zero]

theorem pol_u_facts {k c : Vec3} (hk2 : Vec3.norm2 k = 1)
    (hproj : c - (Vec3.dot c k) • k ≠ 0) :
    Vec3.norm2 (pyNormalize (o_axis_Otype k c)) = 1 ∧
    Vec3.dot (pyNormalize (o_axis_Otype k c)) k = 0 := by
  have h2 : Vec3.norm2 (o_axis_Otype k c) = 1 := o_axis_norm2 hk2 hproj
  have hn : (o_axis_Otype k c).norm = 1 := Vec3.norm_eq_one_iff.mpr h2
  rw [pyNormalize_of_norm_one hn]
  exact ⟨h2, o_axis_dot_k c hk2⟩

theorem lab_ref_bound_x {k : Vec3} (hk2 : Vec3.norm2 k = 1)
    (h : ¬ |Vec3.dot ⟨1, 0, 0⟩ k| > 0.95) :
    (1e-15 : ℝ) ^ 2 ≤ Vec3.norm2 (⟨1, 0, 0⟩ : Vec3) -
      (Vec3.dot ⟨1, 0, 0⟩ k) ^ 2 := by
  have hd : Vec3.dot ⟨1, 0, 0⟩ k = k.x := by simp [Vec3.dot]
  rw [hd] at h
  have habs : |k.x| ≤ 0.95 := not_lt.mp h
  have h1 : Vec3.norm2 (⟨1, 0, 0⟩ : Vec3) = 1 := by simp [Vec3.norm2]
  rw [h1, hd]
  nlinarith [sq_abs k.x, abs_nonneg k.x]

theorem lab_ref_bound_y {k : Vec3} (hk2 : Vec3.norm2 k = 1)
    (h : |Vec3.dot ⟨1, 0, 0⟩ k| > 0.95) :
    (1e-15 : ℝ) ^ 2 ≤ Vec3.norm2 (⟨0, 1, 0⟩ : Vec3) -
      (Vec3.dot ⟨0, 1, 0⟩ k) ^ 2 := by
  have hd : Vec3.dot ⟨1, 0, 0⟩ k = k.x := by simp [Vec3.dot]
  have hdy : Vec3.dot ⟨0, 1, 0⟩ k = k.y := by simp [Vec3.dot]
  rw [hd] at h
  have hx2 : (0.95 : ℝ) ^ 2 < k.x ^ 2 := by
    calc (0.95 : ℝ) ^ 2 < |k.x| ^ 2 := by
          have h95 : (0 : ℝ) ≤ 0.95 := by norm_num
          exact pow_lt_pow_left₀ h h95 two_ne_zero
      _ = k.x ^ 2 := sq_abs k.x
  have h1 : Vec3.norm2 (⟨0, 1, 0⟩ : Vec3) = 1 := by simp [Vec3.norm2]
  rw [h1, hdy]
  simp only [Vec3.norm2] at hk2
  nlinarith [sq_nonneg k.z, sq_nonneg k.y]

/-- C6 (amended): for every direction `k = k_hat(θ, φ)` and every basis
policy, provided for the `pol_in`/`pol_out` policies the supplied axis is not
parallel to `k` (nonzero transverse projection), `transverse_basis` returns a
right-handed orthonormal transverse pair: `|u| = |v| = 1`, `u·v = 0`,
`u·k = v·k = 0`, `v = k × u` and `k·(u × v) = 1`. -/
theorem transverse_basis_orthonormal (theta_deg phi_deg : ℝ) (basis : String)
    (c1 c2 : Vec3)
    (hb : basis = "lab" ∨ basis = "pol_in" ∨ basis = "pol_out")
    (hc1 : basis = "pol_in" →
      c1 - (Vec3.dot c1 (k_hat theta_deg phi_deg)) • k_hat theta_deg phi_deg ≠ 0)
    (hc2 : basis = "pol_out" →
      c2 - (Vec3.dot c2 (k_hat theta_deg phi_deg)) • k_hat theta_deg phi_deg ≠ 0) :
    ∃ u v, transverse_basis (k_hat theta_deg phi_deg) basis (some c1) (some c2) =
        Except.ok (u, v) ∧
      u.norm = 1 ∧ v.norm = 1 ∧ Vec3.dot u v = 0 ∧
      Vec3.dot u (k_hat theta_deg phi_deg) = 0 ∧
      Vec3.dot v (k_hat theta_deg phi_deg) = 0 ∧
      v = Vec3.cross (k_hat theta_deg phi_deg) u ∧
      Vec3.dot (k_hat theta_deg phi_deg) (Vec3.cross u v) = 1 := by
  have hk2 := k_hat_norm2 theta_deg phi_deg
  have hkn := k_hat_norm theta_deg phi_deg
  rcases hb with rfl | rfl | rfl
  · rw [transverse_basis_lab]
    simp only [pyNormalize_of_norm_one hkn]
    by_cases href : |Vec3.dot ⟨1, 0, 0⟩ (k_hat theta_deg phi_deg)| > 0.95
    · rw [if_pos href]
      obtain ⟨hu2, huk⟩ := lab_u_facts (k_hat theta_deg phi_deg) ⟨0, 1, 0⟩ hk2
        (lab_ref_bound_y hk2 href)
      obtain ⟨hun, hvn, hvfix, huv, hvk, htrip⟩ := basis_pack hk2 hu2 huk
      refine ⟨_, _, ?_, hun, hvn, huv, huk, hvk, rfl, htrip⟩
      show Except.ok (_, pyNormalize (Vec3.cross (k_hat theta_deg phi_deg)
        (pyNormalize (⟨0, 1, 0⟩ -
          (Vec3.dot ⟨0, 1, 0⟩ (k_hat theta_deg phi_deg)) •
            k_hat theta_deg phi_deg)))) = _
      rw [hvfix]
    · rw [if_neg href]
      obtain ⟨hu2, huk⟩ := lab_u_facts (k_hat theta_deg phi_deg) ⟨1, 0, 0⟩ hk2
        (lab_ref_bound_x hk2 href)
      obtain ⟨hun, hvn, hvfix, huv, hvk, htrip⟩ := basis_pack hk2 hu2 huk
      refine ⟨_, _, ?_, hun, hvn, huv, huk, hvk, rfl, htrip⟩
      show Except.ok (_, pyNormalize (Vec3.cross (k_hat theta_deg phi_deg)
        (pyNormalize (⟨1, 0, 0⟩ -
          (Vec3.dot ⟨1, 0, 0⟩ (k_hat theta_deg phi_deg)) •
            k_hat theta_deg phi_deg)))) = _
      rw [hvfix]
  · rw [transverse_basis_pol_in]
    simp only [pyNormalize_of_norm_one hkn]
    obtain ⟨hu2, huk⟩ := pol_u_facts hk2 (hc1 rfl)
    obtain ⟨hun, hvn, hvfix, huv, hvk, htrip⟩ := basis_pack hk2 hu2 huk
    refine ⟨_, _, ?_, hun, hvn, huv, huk, hvk, rfl, htrip⟩
    show Except.ok (_, pyNormalize (Vec3.cross (k_hat theta_deg phi_deg)
      (pyNormalize (o_axis_Otype (k_hat theta_deg phi_deg) c1)))) = _
    rw [hvfix]
  · rw [transverse_basis_pol_out]
    simp only [pyNormalize_of_norm_one hkn]
    obtain ⟨hu2, huk⟩ := pol_u_facts hk2 (hc2 rfl)
    obtain ⟨hun, hvn, hvfix, huv, hvk, htrip⟩ := basis_pack hk2 hu2 huk
    refine ⟨_, _, ?_, hun, hvn, huv, huk, hvk, rfl, htrip⟩
    show Except.ok (_, pyNormalize (Vec3.cross (k_hat theta_deg phi_deg)
      (pyNormalize (o_axis_Otype (k_hat theta_deg phi_deg) c2)))) = _
    rw [hvfix]

/-- Witness for C6 under the `"lab"` policy at `(θ, φ) = (30, 45)`. -/
theorem transverse_basis_orthonormal_witness :
    ∃ u v, transverse_basis (k_hat 30 45) "lab" (some ⟨1, 0, 0⟩)
        (some ⟨0, 1, 0⟩) = Except.ok (u, v) ∧
      u.norm = 1 ∧ v.norm = 1 ∧ Vec3.dot u v = 0 ∧
      Vec3.dot u (k_hat 30 45) = 0 ∧ Vec3.dot v (k_hat 30 45) = 0 ∧
      v = Vec3.cross (k_hat 30 45) u ∧
      Vec3.dot (k_hat 30 45) (Vec3.cross u v) = 1 :=
  transverse_basis_orthonormal 30 45 "lab" ⟨1, 0, 0⟩ ⟨0, 1, 0⟩ (Or.inl rfl)
    (fun h => absurd h (by decide)) (fun h => absurd h (by decide))

theorem o_axis_z_z : o_axis_Otype ⟨0, 0, 1⟩ ⟨0, 0, 1⟩ = 0 := by
  have hd : Vec3.dot ⟨0, 0, 1⟩ (⟨0, 0, 1⟩ : Vec3) = 1 := by simp [Vec3.dot]
  have hw : (⟨0, 0, 1⟩ : Vec3) - (1 : ℝ) • ⟨0, 0, 1⟩ = 0 := by
    refine Vec3.ext_iff.mpr ⟨?_, ?_, ?_⟩ <;> simp
  simp only [o_axis_Otype, hd, hw]
  refine Vec3.ext_iff.mpr ⟨?_, ?_, ?_⟩ <;> simp

theorem pyNormalize_zero : pyNormalize 0 = 0 := by
  unfold pyNormalize
  refine Vec3.ext_iff.mpr ⟨?_, ?_, ?_⟩ <;> simp

theorem cross_zero_right (a : Vec3) : Vec3.cross a 0 = 0 := by
  unfold Vec3.cross
  refine Vec3.ext_iff.mpr ⟨?_, ?_, ?_⟩ <;> simp

theorem norm_zero_vec : Vec3.norm 0 = 0 := by
  unfold Vec3.norm
  rw [show Vec3.norm2 0 = 0 from by simp [Vec3.norm2]]
  exact Real.sqrt_zero

/-- Counterexample for C6 as stated: at the unit direction `k_hat(0, 0) = ẑ`
with the `pol_in` policy and supplied axis `c1 = ẑ` (parallel to `k`), the
returned `u` is the zero vector, whose norm is 0, not 1. -/
theorem transverse_basis_parallel_axis_cex :
    Vec3.norm (k_hat 0 0) = 1 ∧
    transverse_basis (k_hat 0 0) "pol_in" (some ⟨0, 0, 1⟩) (some ⟨1, 0, 0⟩) =
      Except.ok (0, 0) ∧
    Vec3.norm 0 ≠ 1 := by
  have hkz := k_hat_zero
  have hkn : Vec3.norm (k_hat 0 0) = 1 := by rw [hkz]; exact norm_z_unit
  refine ⟨hkn, ?_, by rw [norm_zero_vec]; norm_num⟩
  rw [transverse_basis_pol_in]
  simp only [hkz, pyNormalize_of_norm_one norm_z_unit, o_axis_z_z,
    pyNormalize_zero, cross_zero_right]
